import Mathlib

/-!
# Tile-parallel rendering and the Whitted integrator

A shallow embedding of `src/core/geometry.h`, `src/core/integrator.cpp` and
`src/integrators/whitted.cpp`.

Conventions of the embedding:

* C++ `int` values are integers of `ℤ`; `/` on `int` is truncating division
  (`Int.tdiv`).  Signed overflow is undefined in C++, so the statements speak
  about the executions in which every intermediate `int` is representable.
* `Float` and `Spectrum` are declared outside the translated sources.  The
  integrator code is therefore generic in both types and only uses the
  operations that occur in the source text.  `FloatVal` and `RGBSpectrum`
  give one concrete reading with NaN and the two infinities.  Statements
  over exact arithmetic take an ordered field, or the reals, for `Float`.
  `Binary32` is the reading in which every arithmetic result is rounded to
  single precision.
* `std::sqrt` is a parameter of the functions that call it.
* Functions that receive `Sampler&` thread the sampler state explicitly.
* A value of type `Option Spectrum` that is `none` stands for an
  indeterminate C++ value (control reached the end of a non-void function
  without a `return`).
* Every integrator function also reports the calls it made, in order, so
  that statements about which functions are invoked can be phrased.
-/

namespace Pbrt

/-! ## geometry.h -/

/-- Class template `Vector2<T>`: public data `x`, `y`. -/
structure Vector2 (T : Type) where
  x : T
  y : T
deriving DecidableEq

/-- Class template `Point2<T>` (declared after the part of geometry.h that is
available): public data `x`, `y`. -/
structure Point2 (T : Type) where
  x : T
  y : T
deriving DecidableEq

/-- The typedef `Vector2i`. -/
abbrev Vector2i := Vector2 Int

/-- The typedef `Point2i`. -/
abbrev Point2i := Point2 Int

/-- Class template `Bounds2<T>`: an axis-aligned box given by its corners. -/
structure Bounds2 (T : Type) where
  pMin : Point2 T
  pMax : Point2 T
deriving DecidableEq

/-- The typedef `Bounds2i`. -/
abbrev Bounds2i := Bounds2 Int

/-- The subtraction `Point2 - Point2`, which yields a `Vector2`. -/
def Point2.sub {T : Type} [Sub T] (p q : Point2 T) : Vector2 T :=
  ⟨p.x - q.x, p.y - q.y⟩

/-- The method `Bounds2::Diagonal`: `pMax - pMin`. -/
def Bounds2.Diagonal {T : Type} [Sub T] (b : Bounds2 T) : Vector2 T :=
  b.pMax.sub b.pMin

/-- The pixels visited by the range-based `for (Point2i pixel : tileBounds)`:
the integer points of the half-open box `[pMin.x, pMax.x) x [pMin.y, pMax.y)`. -/
def Bounds2.InsideExclusive (p : Point2i) (b : Bounds2i) : Prop :=
  (b.pMin.x ≤ p.x ∧ p.x < b.pMax.x) ∧ (b.pMin.y ≤ p.y ∧ p.y < b.pMax.y)

instance (p : Point2i) (b : Bounds2i) : Decidable (Bounds2.InsideExclusive p b) := by
  unfold Bounds2.InsideExclusive
  infer_instance

/-- Class template `Vector3<T>`: public data `x`, `y`, `z`. -/
structure Vector3 (T : Type) where
  x : T
  y : T
  z : T
deriving DecidableEq

/-- Class template `Point3<T>` (declared after the part of geometry.h that is
available): public data `x`, `y`, `z`. -/
structure Point3 (T : Type) where
  x : T
  y : T
  z : T
deriving DecidableEq

/-- Class template `Normal3<T>` (declared after the part of geometry.h that is
available): public data `x`, `y`, `z`. -/
structure Normal3 (T : Type) where
  x : T
  y : T
  z : T
deriving DecidableEq

section VectorOps

variable {T : Type}

/-- The default constructor `Vector3() { x = y = z = 0; }`. -/
instance [Zero T] : Zero (Vector3 T) := ⟨⟨0, 0, 0⟩⟩

/-- The default constructor of `Point3`, all coordinates zero. -/
instance [Zero T] : Zero (Point3 T) := ⟨⟨0, 0, 0⟩⟩

/-- Method `Vector3::operator+`. -/
instance [Add T] : Add (Vector3 T) := ⟨fun u v => ⟨u.x + v.x, u.y + v.y, u.z + v.z⟩⟩

/-- Method `Vector3::operator-` (binary). -/
instance [Sub T] : Sub (Vector3 T) := ⟨fun u v => ⟨u.x - v.x, u.y - v.y, u.z - v.z⟩⟩

/-- Method `Vector3::operator-` (unary). -/
instance [Neg T] : Neg (Vector3 T) := ⟨fun v => ⟨-v.x, -v.y, -v.z⟩⟩

/-- Method `Vector3::operator*(U s)`: `Vector3(s * x, s * y, s * z)`. -/
instance [Mul T] : HMul (Vector3 T) T (Vector3 T) := ⟨fun v s => ⟨s * v.x, s * v.y, s * v.z⟩⟩

/-- The free function `operator*(T s, const Vector3<T>& v) { return v * s; }`. -/
instance [Mul T] : HMul T (Vector3 T) (Vector3 T) := ⟨fun s v => v * s⟩

/-- The free function `Dot(const Vector3<T>&, const Vector3<T>&)`. -/
def Dot [Add T] [Mul T] (v1 v2 : Vector3 T) : T :=
  v1.x * v2.x + v1.y * v2.y + v1.z * v2.z

/-- The sum `Point3 + Vector3`, a point. -/
instance [Add T] : HAdd (Point3 T) (Vector3 T) (Point3 T) :=
  ⟨fun p v => ⟨p.x + v.x, p.y + v.y, p.z + v.z⟩⟩

/-- The sum `Normal3 + Normal3`. -/
instance [Add T] : Add (Normal3 T) := ⟨fun u v => ⟨u.x + v.x, u.y + v.y, u.z + v.z⟩⟩

/-- The unary minus of `Normal3`. -/
instance [Neg T] : Neg (Normal3 T) := ⟨fun v => ⟨-v.x, -v.y, -v.z⟩⟩

/-- The product `Normal3 * scalar`, with the same component expression as
`Vector3::operator*`. -/
instance [Mul T] : HMul (Normal3 T) T (Normal3 T) := ⟨fun v s => ⟨s * v.x, s * v.y, s * v.z⟩⟩

/-- The product `scalar * Normal3`, which forwards to `Normal3 * scalar`. -/
instance [Mul T] : HMul T (Normal3 T) (Normal3 T) := ⟨fun s v => v * s⟩

/-- The explicit conversion `Vector3(const Normal3<T>& n)`. -/
def Vector3.ofNormal (n : Normal3 T) : Vector3 T := ⟨n.x, n.y, n.z⟩

/-- The overload `Dot(const Vector3<T>&, const Normal3<T>&)`. -/
def DotVN [Add T] [Mul T] (v : Vector3 T) (n : Normal3 T) : T :=
  v.x * n.x + v.y * n.y + v.z * n.z

end VectorOps

/-! ## The scalar type `Float` and the class `Spectrum` -/

/-- The functions of `<cmath>` that the sources apply to `Float` values:
`std::abs` and `std::isinf`, together with the predicate `isNaN` that
geometry.h uses in `HasNaNs`. -/
class CMath (Float : Type) where
  abs : Float → Float
  isinf : Float → Bool
  isNaN : Float → Bool

/-- The free function `AbsDot(const Vector3<T>&, const Vector3<T>&)`. -/
def AbsDot {T : Type} [Add T] [Mul T] [CMath T] (v1 v2 : Vector3 T) : T :=
  CMath.abs (Dot v1 v2)

/-- The overload `AbsDot(const Vector3<T>&, const Normal3<T>&)`. -/
def AbsDotVN {T : Type} [Add T] [Mul T] [CMath T] (v : Vector3 T) (n : Normal3 T) : T :=
  CMath.abs (DotVN v n)

/-- Exact arithmetic in an ordered field: `std::abs` is the absolute value,
and no value is infinite or NaN. -/
instance {F : Type} [LinearOrderedField F] : CMath F :=
  ⟨fun x => |x|, fun _ => false, fun _ => false⟩

section MoreVectorOps

variable {T : Type}

/-- Method `Vector3::operator/(U f)`: `CHECK_NE(f, 0)` stops the program when
the divisor is zero (`none`); otherwise every component is multiplied by
`inv = (Float)1 / f`. -/
def Vector3.div [Zero T] [One T] [Mul T] [Div T] [DecidableEq T] (v : Vector3 T) (f : T) :
    Option (Vector3 T) :=
  if f = 0 then none
  else
    let inv := (1 : T) / f
    some ⟨v.x * inv, v.y * inv, v.z * inv⟩

/-- Method `Vector3::LengthSquared`. -/
def Vector3.LengthSquared [Add T] [Mul T] (v : Vector3 T) : T :=
  v.x * v.x + v.y * v.y + v.z * v.z

/-- Method `Vector3::Length`, with `std::sqrt` as the parameter `sqrt`. -/
def Vector3.Length [Add T] [Mul T] (sqrt : T → T) (v : Vector3 T) : T :=
  sqrt v.LengthSquared

/-- The free function `Cross(const Vector3<T>&, const Vector3<T>&)`. -/
def Cross [Sub T] [Mul T] (v1 v2 : Vector3 T) : Vector3 T :=
  ⟨(v1.y * v2.z) - (v1.z * v2.y), (v1.z * v2.x) - (v1.x * v2.z), (v1.x * v2.y) - (v1.y * v2.x)⟩

/-- The divisor that `CoordinateSystem` passes to `operator/`: the square
root chosen by the test `std::abs(v1.x) > std::abs(v1.y)`. -/
def CoordinateSystem.divisor [Add T] [Mul T] [LT T] [∀ a b : T, Decidable (a < b)] [CMath T]
    (sqrt : T → T) (v1 : Vector3 T) : T :=
  if CMath.abs v1.x > CMath.abs v1.y then sqrt (v1.x * v1.x + v1.z * v1.z)
  else sqrt (v1.y * v1.y + v1.z * v1.z)

/-- The free function `CoordinateSystem(v1, &v2, &v3)`, with `std::sqrt` as
the parameter `sqrt`; the result is the pair of the out parameters
`(*v2, *v3)`, or `none` when `operator/` stops on a zero divisor. -/
def CoordinateSystem [Zero T] [One T] [Add T] [Sub T] [Neg T] [Mul T] [Div T] [LT T]
    [∀ a b : T, Decidable (a < b)] [DecidableEq T] [CMath T]
    (sqrt : T → T) (v1 : Vector3 T) : Option (Vector3 T × Vector3 T) :=
  let v2 :=
    if CMath.abs v1.x > CMath.abs v1.y then
      Vector3.div ⟨-v1.z, 0, v1.x⟩ (sqrt (v1.x * v1.x + v1.z * v1.z))
    else
      Vector3.div ⟨0, v1.z, -v1.y⟩ (sqrt (v1.y * v1.y + v1.z * v1.z))
  v2.map fun v2 => (v2, Cross v1 v2)

/-- Method `Vector3::operator[](int i) const`: `x` for `i == 0`, `y` for
`i == 1`, and `z` otherwise (the `DCHECK` on the range of `i` is a debug
assertion). -/
def Vector3.get (v : Vector3 T) (i : Int) : T :=
  if i = 0 then v.x else if i = 1 then v.y else v.z

/-- The function `std::max(a, b)` of `<algorithm>`: `(a < b) ? b : a`. -/
def stdMax [LT T] [∀ a b : T, Decidable (a < b)] (a b : T) : T :=
  if a < b then b else a

/-- The free function `MaxComponent(const Vector3<T>&)`. -/
def MaxComponent [LT T] [∀ a b : T, Decidable (a < b)] (v : Vector3 T) : T :=
  stdMax v.x (stdMax v.y v.z)

/-- The free function `MaxDimension(const Vector3<T>&)`. -/
def MaxDimension [LT T] [∀ a b : T, Decidable (a < b)] (v : Vector3 T) : Int :=
  if v.x > v.y then (if v.x > v.z then 0 else 2) else (if v.y > v.z then 1 else 2)

/-- The reflection map of the spec, `R(w, n) = -w + 2 (w . n) n`. -/
def reflectionMap [OfNat T 2] [Add T] [Neg T] [Mul T] (w : Vector3 T) (n : Normal3 T) :
    Vector3 T :=
  -w + ((2 : T) * DotVN w n) * Vector3.ofNormal n

/-- The first-order change of the reflection map at `(w, n)` in the direction
`(dw, dn)`: `-dw + 2 ((w . n) dn + (dw . n + w . dn) n)`. -/
def reflectionDerivative [OfNat T 2] [Add T] [Neg T] [Mul T] (w : Vector3 T) (n : Normal3 T)
    (dw : Vector3 T) (dn : Normal3 T) : Vector3 T :=
  -dw + (2 : T) * Vector3.ofNormal (DotVN w n * dn + (DotVN dw n + DotVN w dn) * n)

end MoreVectorOps

/-- The interface of class `Spectrum`, which is declared outside the
translated sources, as far as the integrators use it: the constructor
`Spectrum(Float v)`, the tests `IsBlack()` and `HasNaNs()` and the luminance
`y()`.  The arithmetic operators are taken from the usual operator classes. -/
class SpectrumClass (Float : outParam Type) (Spectrum : Type) where
  ofFloat : Float → Spectrum
  IsBlack : Spectrum → Bool
  HasNaNs : Spectrum → Bool
  y : Spectrum → Float

/-- Values of the C++ type `Float` up to rounding: NaN, the two infinities,
and the finite values, which are computed with exactly.  There is one zero. -/
inductive FloatVal where
  | nan
  | negInf
  | posInf
  | fin (q : ℚ)
deriving DecidableEq

namespace FloatVal

/-- IEEE addition: NaN is absorbing, opposite infinities give NaN. -/
def add : FloatVal → FloatVal → FloatVal
  | nan, _ => nan
  | _, nan => nan
  | posInf, negInf => nan
  | negInf, posInf => nan
  | posInf, _ => posInf
  | _, posInf => posInf
  | negInf, _ => negInf
  | _, negInf => negInf
  | fin a, fin b => fin (a + b)

/-- IEEE negation. -/
def neg : FloatVal → FloatVal
  | nan => nan
  | negInf => posInf
  | posInf => negInf
  | fin a => fin (-a)

/-- An infinity with the sign of `s * q`, or NaN when `q` is zero. -/
def infTimes (positive : Bool) (q : ℚ) : FloatVal :=
  if q = 0 then nan else if (0 < q) = positive then posInf else negInf

/-- IEEE multiplication: NaN is absorbing, zero times infinity is NaN. -/
def mul : FloatVal → FloatVal → FloatVal
  | nan, _ => nan
  | _, nan => nan
  | posInf, posInf => posInf
  | posInf, negInf => negInf
  | negInf, posInf => negInf
  | negInf, negInf => posInf
  | posInf, fin b => infTimes true b
  | negInf, fin b => infTimes false b
  | fin a, posInf => infTimes true a
  | fin a, negInf => infTimes false a
  | fin a, fin b => fin (a * b)

/-- IEEE division, with a zero divisor read as positive zero. -/
def div : FloatVal → FloatVal → FloatVal
  | nan, _ => nan
  | _, nan => nan
  | posInf, fin b => if 0 ≤ b then posInf else negInf
  | negInf, fin b => if 0 ≤ b then negInf else posInf
  | fin _, posInf => fin 0
  | fin _, negInf => fin 0
  | fin a, fin b => if b = 0 then infTimes true a else fin (a / b)
  | _, _ => nan

/-- IEEE `<`: false as soon as one side is NaN. -/
def lt : FloatVal → FloatVal → Bool
  | nan, _ => false
  | _, nan => false
  | negInf, negInf => false
  | negInf, _ => true
  | _, negInf => false
  | posInf, _ => false
  | fin _, posInf => true
  | fin a, fin b => decide (a < b)

/-- IEEE `<=`: false as soon as one side is NaN. -/
def le : FloatVal → FloatVal → Bool
  | nan, _ => false
  | _, nan => false
  | negInf, _ => true
  | _, posInf => true
  | posInf, _ => false
  | _, negInf => false
  | fin a, fin b => decide (a ≤ b)

/-- The function `std::abs` on `Float`. -/
def abs : FloatVal → FloatVal
  | nan => nan
  | negInf => posInf
  | posInf => posInf
  | fin a => fin |a|

/-- The function `std::isinf`. -/
def isinf : FloatVal → Bool
  | negInf => true
  | posInf => true
  | _ => false

/-- The function `isNaN`. -/
def isNaN : FloatVal → Bool
  | nan => true
  | _ => false

/-- A `Float` that is neither NaN nor infinite. -/
def IsFinite : FloatVal → Prop
  | fin _ => True
  | _ => False

instance : Zero FloatVal := ⟨fin 0⟩
instance : One FloatVal := ⟨fin 1⟩
instance : OfNat FloatVal 2 := ⟨fin 2⟩
instance : OfScientific FloatVal := ⟨fun m s e => fin (OfScientific.ofScientific m s e)⟩
instance : IntCast FloatVal := ⟨fun z => fin z⟩
instance : Add FloatVal := ⟨add⟩
instance : Neg FloatVal := ⟨neg⟩
instance : Sub FloatVal := ⟨fun a b => add a (neg b)⟩
instance : Mul FloatVal := ⟨mul⟩
instance : Div FloatVal := ⟨div⟩
instance : LT FloatVal := ⟨fun a b => lt a b = true⟩
instance : LE FloatVal := ⟨fun a b => le a b = true⟩
instance (a b : FloatVal) : Decidable (a < b) := inferInstanceAs (Decidable (lt a b = true))
instance (a b : FloatVal) : Decidable (a ≤ b) := inferInstanceAs (Decidable (le a b = true))
instance : CMath FloatVal := ⟨abs, isinf, isNaN⟩

end FloatVal

/-- Modelled from the spec: class `Spectrum` is not among the translated
sources.  The spec describes a per-band radiometric value with addition and
scalar and elementwise multiplication, whose luminance can be negative or
infinite.  This reading has the three bands of an RGB spectrum. -/
structure RGBSpectrum (Float : Type) where
  r : Float
  g : Float
  b : Float
deriving DecidableEq

section RGBSpectrumOps

variable {Float : Type}

/-- Elementwise `operator+` (also used for `+=`). -/
instance [Add Float] : Add (RGBSpectrum Float) :=
  ⟨fun s t => ⟨s.r + t.r, s.g + t.g, s.b + t.b⟩⟩

/-- Elementwise `operator*` of two spectra. -/
instance [Mul Float] : Mul (RGBSpectrum Float) :=
  ⟨fun s t => ⟨s.r * t.r, s.g * t.g, s.b * t.b⟩⟩

/-- The product `Spectrum * Float`, every band times the scalar. -/
instance [Mul Float] : HMul (RGBSpectrum Float) Float (RGBSpectrum Float) :=
  ⟨fun s a => ⟨s.r * a, s.g * a, s.b * a⟩⟩

/-- The quotient `Spectrum / Float`, every band divided by the scalar. -/
instance [Div Float] : HDiv (RGBSpectrum Float) Float (RGBSpectrum Float) :=
  ⟨fun s a => ⟨s.r / a, s.g / a, s.b / a⟩⟩

/-- The luminance `y()`: the bands weighted by the positive luminance
weights of the RGB primaries, which sum to one. -/
def RGBSpectrum.y [Add Float] [Mul Float] [OfScientific Float] (s : RGBSpectrum Float) : Float :=
  0.212671 * s.r + 0.715160 * s.g + 0.072169 * s.b

/-- The test `IsBlack()`: no band differs from zero. -/
def RGBSpectrum.IsBlack [Zero Float] [DecidableEq Float] (s : RGBSpectrum Float) : Bool :=
  decide (s.r = 0) && decide (s.g = 0) && decide (s.b = 0)

/-- The test `HasNaNs()`: some band is NaN. -/
def RGBSpectrum.HasNaNs [CMath Float] (s : RGBSpectrum Float) : Bool :=
  CMath.isNaN s.r || CMath.isNaN s.g || CMath.isNaN s.b

instance [Zero Float] [DecidableEq Float] [Add Float] [Mul Float] [OfScientific Float]
    [CMath Float] : SpectrumClass Float (RGBSpectrum Float) where
  ofFloat v := ⟨v, v, v⟩
  IsBlack := RGBSpectrum.IsBlack
  HasNaNs := RGBSpectrum.HasNaNs
  y := RGBSpectrum.y

end RGBSpectrumOps

/-! ## Single-precision rounding -/

namespace Binary32Format

/-- The power `2 ^ e` for an integer exponent `e`. -/
def pow2 (e : Int) : ℚ :=
  if 0 ≤ e then ((2 ^ e.toNat : Nat) : ℚ) else 1 / ((2 ^ (-e).toNat : Nat) : ℚ)

/-- The number of binary digits of `n`, by repeated halving; the first
argument bounds the number of halvings. -/
def bitLength : Nat → Nat → Nat
  | 0, _ => 0
  | fuel + 1, n => if n = 0 then 0 else bitLength fuel (n / 2) + 1

/-- The exponent of the leading binary digit of a positive natural number. -/
def log2Floor (n : Nat) : Nat := bitLength n n - 1

/-- The binary exponent of a positive rational `a`: the `e` with
`2 ^ e <= a < 2 ^ (e + 1)`.  The difference of the exponents of numerator and
denominator is `e` or `e + 1`. -/
def exponentOf (a : ℚ) : Int :=
  let e0 : Int := (log2Floor a.num.natAbs : Int) - (log2Floor a.den : Int)
  if pow2 e0 ≤ a then e0 else e0 - 1

/-- Rounding of a non-negative rational to the nearest integer, a tie to the
even neighbour. -/
def roundHalfEven (r : ℚ) : Int :=
  let f := r.floor
  if r - f < 1 / 2 then f
  else if 1 / 2 < r - f then f + 1
  else if f % 2 = 0 then f else f + 1

/-- The multiple of the unit in the last place that is nearest to the positive
rational `a`, a tie to the even one.  The significand has 24 binary digits and
the least exponent is -126, below which the spacing stays `2 ^ (-149)`. -/
def roundMagnitude (a : ℚ) : ℚ :=
  let e := max (exponentOf a) (-126)
  let ulp := pow2 (e - 23)
  (roundHalfEven (a / ulp) : ℚ) * ulp

/-- Rounding to the nearest binary32 value, ties to even: a magnitude that
rounds to `2 ^ 128` or more becomes an infinity; NaN and the infinities are
kept. -/
def round (x : FloatVal) : FloatVal :=
  match x with
  | FloatVal.fin q =>
    if q = 0 then FloatVal.fin 0
    else
      let m := roundMagnitude |q|
      if pow2 128 ≤ m then (if 0 < q then FloatVal.posInf else FloatVal.negInf)
      else FloatVal.fin (if 0 < q then m else -m)
  | y => y

end Binary32Format

/-- Modelled from the spec: the type `Float` is declared outside the
translated sources, which write its literals in single precision (`0.f`).
This reading is the IEEE binary32 format: a value of `FloatVal`, with the
result of every addition, subtraction, multiplication and division rounded to
the nearest binary32 value.  Negation, `std::abs` and the comparisons are
exact.  There is one zero. -/
structure Binary32 where
  val : FloatVal
deriving DecidableEq

namespace Binary32

instance : Zero Binary32 := ⟨⟨FloatVal.fin 0⟩⟩
instance : One Binary32 := ⟨⟨FloatVal.fin 1⟩⟩
instance : OfNat Binary32 2 := ⟨⟨FloatVal.fin 2⟩⟩
instance : OfScientific Binary32 :=
  ⟨fun m s e => ⟨Binary32Format.round (FloatVal.fin (OfScientific.ofScientific m s e))⟩⟩
instance : IntCast Binary32 := ⟨fun z => ⟨Binary32Format.round (FloatVal.fin z)⟩⟩
instance : Add Binary32 := ⟨fun a b => ⟨Binary32Format.round (a.val + b.val)⟩⟩
instance : Neg Binary32 := ⟨fun a => ⟨-a.val⟩⟩
instance : Sub Binary32 := ⟨fun a b => ⟨Binary32Format.round (a.val - b.val)⟩⟩
instance : Mul Binary32 := ⟨fun a b => ⟨Binary32Format.round (a.val * b.val)⟩⟩
instance : Div Binary32 := ⟨fun a b => ⟨Binary32Format.round (a.val / b.val)⟩⟩
instance : LT Binary32 := ⟨fun a b => a.val < b.val⟩
instance : LE Binary32 := ⟨fun a b => a.val ≤ b.val⟩
instance (a b : Binary32) : Decidable (a < b) := inferInstanceAs (Decidable (a.val < b.val))
instance (a b : Binary32) : Decidable (a ≤ b) := inferInstanceAs (Decidable (a.val ≤ b.val))
instance : CMath Binary32 :=
  ⟨fun a => ⟨CMath.abs a.val⟩, fun a => CMath.isinf a.val, fun a => CMath.isNaN a.val⟩

end Binary32

/-! ## Collaborators of the integrators

The classes below are declared outside the translated sources.  Each one is
the record of the members that integrator.cpp, whitted.cpp and scene.cpp use. -/

/-- Modelled from the spec: a `Ray` is an origin point and a direction vector. -/
structure Ray (Float : Type) where
  o : Point3 Float
  d : Vector3 Float

/-- Modelled from the spec: a `RayDifferential` is a `Ray` plus a pair of
auxiliary rays and a flag `hasDifferentials` that marks them valid. -/
structure RayDifferential (Float : Type) extends Ray Float where
  hasDifferentials : Bool
  rxOrigin : Point3 Float
  ryOrigin : Point3 Float
  rxDirection : Vector3 Float
  ryDirection : Vector3 Float

/-- The converting constructor used by `RayDifferential rd = isect.SpawnRay(wi);`:
the flag is false and the auxiliary members are default constructed. -/
def RayDifferential.ofRay {Float : Type} [Zero Float] (ray : Ray Float) : RayDifferential Float :=
  { toRay := ray, hasDifferentials := false, rxOrigin := 0, ryOrigin := 0,
    rxDirection := 0, ryDirection := 0 }

/-- Modelled from the spec: the `Sampler` operation `Get2D() -> 2D random
sample`.  The sampler state is a position in a fixed sequence of samples. -/
structure Sampler (Float : Type) where
  samples : Nat → Point2 Float
  index : Nat
  samplesPerPixel : Int

/-- The method `Sampler::Get2D`: returns the next sample and advances. -/
def Sampler.Get2D {Float : Type} (sampler : Sampler Float) : Point2 Float × Sampler Float :=
  (sampler.samples sampler.index, { sampler with index := sampler.index + 1 })

/-- The enumeration `BxDFType`, a set of flags. -/
structure BxDFType where
  reflection : Bool
  transmission : Bool
  diffuse : Bool
  glossy : Bool
  specular : Bool
deriving DecidableEq

/-- The flag `BSDF_REFLECTION`. -/
def BSDF_REFLECTION : BxDFType := ⟨true, false, false, false, false⟩

/-- The flag `BSDF_TRANSMISSION`. -/
def BSDF_TRANSMISSION : BxDFType := ⟨false, true, false, false, false⟩

/-- The flag `BSDF_SPECULAR`. -/
def BSDF_SPECULAR : BxDFType := ⟨false, false, false, false, true⟩

/-- The bitwise or of two flag sets. -/
def BxDFType.or (a b : BxDFType) : BxDFType :=
  ⟨a.reflection || b.reflection, a.transmission || b.transmission, a.diffuse || b.diffuse,
   a.glossy || b.glossy, a.specular || b.specular⟩

/-- What `BSDF::Sample_f` hands back: its return value and the two out
parameters `wi` and `pdf`. -/
structure BSDFSample (Float Spectrum : Type) where
  f : Spectrum
  wi : Vector3 Float
  pdf : Float

/-- Modelled from the spec: the local scattering function with
`f(wo, wi)`, `Sample_f(wo, sample2D, type) -> (value, wi, pdf)` and an
index-of-refraction scalar `eta`. -/
structure BSDF (Float Spectrum : Type) where
  eta : Float
  f : Vector3 Float → Vector3 Float → Spectrum
  Sample_f : Vector3 Float → Point2 Float → BxDFType → BSDFSample Float Spectrum

/-- The member `shading` of a surface interaction. -/
structure Shading (Float : Type) where
  n : Normal3 Float
  dndu : Normal3 Float
  dndv : Normal3 Float

/-- Modelled from the spec: a `SurfaceInteraction` holds the hit point, the
outgoing direction, the normals and the partial derivatives of position and
of the surface parameters with respect to screen space; it gives the emitted
radiance `Le(w)` and spawns rays leaving the hit point. -/
structure SurfaceInteraction (Float Spectrum : Type) where
  p : Point3 Float
  wo : Vector3 Float
  n : Normal3 Float
  shading : Shading Float
  dpdx : Vector3 Float
  dpdy : Vector3 Float
  dudx : Float
  dvdx : Float
  dudy : Float
  dvdy : Float
  bsdf : BSDF Float Spectrum
  Le : Vector3 Float → Spectrum
  SpawnRay : Vector3 Float → Ray Float

/-- Modelled from the spec: the aggregate answers `Intersect(ray) -> optional
interaction` and `IntersectP(ray) -> bool`.  The request
`isect.ComputeScatteringFunction(ray, arena)` is answered by the surface that
was hit and yields the interaction with its scattering function filled in. -/
structure Primitive (Float Spectrum : Type) where
  Intersect : Ray Float → Option (SurfaceInteraction Float Spectrum)
  IntersectP : Ray Float → Bool
  ComputeScatteringFunction :
    SurfaceInteraction Float Spectrum → RayDifferential Float → SurfaceInteraction Float Spectrum

/-- Modelled from the spec: the visibility tester answers whether the
sampled point and the light are mutually visible, an occlusion test against
the geometry of the scene. -/
structure VisibilityTester (Float Spectrum : Type) where
  Unoccluded : Primitive Float Spectrum → Bool

/-- What `Light::Sample_Li` hands back: its return value and the out
parameters `wi`, `pdf` and `visibility`. -/
structure LightSample (Float Spectrum : Type) where
  Li : Spectrum
  wi : Vector3 Float
  pdf : Float
  visibility : VisibilityTester Float Spectrum

/-- Modelled from the spec: a light with `Le(ray) -> radiance` and
`Sample_Li(interaction, sample2D) -> (radiance, direction, pdf, visibilityTester)`. -/
structure Light (Float Spectrum : Type) where
  Le : RayDifferential Float → Spectrum
  Sample_Li : SurfaceInteraction Float Spectrum → Point2 Float → LightSample Float Spectrum

/-! ## scene.h and scene.cpp -/

/-- Class `Scene`: the public `lights` and the private `aggregate`. -/
structure Scene (Float Spectrum : Type) where
  lights : List (Light Float Spectrum)
  aggregate : Primitive Float Spectrum

/-- The method `Scene::Intersect`. -/
def Scene.Intersect {Float Spectrum : Type} (scene : Scene Float Spectrum) (ray : Ray Float) :
    Option (SurfaceInteraction Float Spectrum) :=
  scene.aggregate.Intersect ray

/-- The method `Scene::IntersectP`. -/
def Scene.IntersectP {Float Spectrum : Type} (scene : Scene Float Spectrum) (ray : Ray Float) :
    Bool :=
  scene.aggregate.IntersectP ray

/-! ## integrator.cpp: the tile geometry of `SamplerIntegrator::Render` -/

namespace SamplerIntegrator

/-- The local constant `const int tileSize = 16;`. -/
def tileSize : Int := 16

/-- The local `nTiles` of `Render` (lines 8-11).  The source line for the
second component has an unbalanced parenthesis,
`sampleExtent.y + tileSize - 1) / tileSize)`; it is read as the same
expression as the first component, `(sampleExtent.y + tileSize - 1) / tileSize`. -/
def nTiles (sampleBounds : Bounds2i) : Point2i :=
  let sampleExtent : Vector2i := sampleBounds.Diagonal
  ⟨Int.tdiv (sampleExtent.x + tileSize - 1) tileSize,
   Int.tdiv (sampleExtent.y + tileSize - 1) tileSize⟩

/-- The tile indices on which `ParallelFor2D(func, nTiles)` runs `func`:
all `(x, y)` with `0 <= x < count.x` and `0 <= y < count.y`. -/
def ParallelFor2D.Runs (count : Point2i) (tile : Point2i) : Prop :=
  (0 ≤ tile.x ∧ tile.x < count.x) ∧ (0 ≤ tile.y ∧ tile.y < count.y)

instance (count tile : Point2i) : Decidable (ParallelFor2D.Runs count tile) := by
  unfold ParallelFor2D.Runs
  infer_instance

/-- The local `seed` of the tile task (line 20). -/
def seed (sampleBounds : Bounds2i) (tile : Point2i) : Int :=
  tile.y * (nTiles sampleBounds).x + tile.x

/-- The local `tileBounds` of the tile task (lines 24-28). -/
def tileBounds (sampleBounds : Bounds2i) (tile : Point2i) : Bounds2i :=
  let x0 := sampleBounds.pMin.x + tile.x * tileSize
  let x1 := min (x0 + tileSize) sampleBounds.pMax.x
  let y0 := sampleBounds.pMin.y + tile.y * tileSize
  let y1 := min (y0 + tileSize) sampleBounds.pMax.y
  ⟨⟨x0, y0⟩, ⟨x1, y1⟩⟩

end SamplerIntegrator

/-! ## integrator.h, integrator.cpp and whitted.cpp: radiance along a ray -/

/-- One entry of the call record: a call of the virtual `Li` with the ray
and depth passed, or a call of one of the two specular helpers. -/
inductive Call (Float : Type) where
  | Li (ray : RayDifferential Float) (depth : Int)
  | SpecularReflect (depth : Int)
  | SpecularTransmit (depth : Int)

/-- The result of running an integrator function: the returned `Spectrum`
(`none` when indeterminate), the sampler state afterwards, and the calls
made, in order. -/
structure Outcome (Float Spectrum : Type) where
  value : Option Spectrum
  sampler : Sampler Float
  calls : List (Call Float)

/-- Whether an entry of the call record is a call of `Li`. -/
def Call.isLi {Float : Type} : Call Float → Bool
  | Call.Li _ _ => true
  | _ => false

/-- The number of calls of `Li` in a call record. -/
def countLi {Float : Type} (calls : List (Call Float)) : Nat :=
  calls.countP Call.isLi

/-- The signature of the pure virtual `SamplerIntegrator::Li`
(`MemoryArena& arena` is scratch memory and is left out). -/
abbrev LiFn (Float Spectrum : Type) :=
  RayDifferential Float → Scene Float Spectrum → Sampler Float → Int → Outcome Float Spectrum

section Integrators

variable {Float Spectrum : Type}
variable [Zero Float] [One Float] [OfNat Float 2] [OfScientific Float] [IntCast Float]
variable [Add Float] [Sub Float] [Neg Float] [Mul Float] [Div Float]
variable [LT Float] [∀ a b : Float, Decidable (a < b)] [DecidableEq Float] [CMath Float]
variable [Add Spectrum] [Mul Spectrum] [HMul Spectrum Float Spectrum]
variable [HDiv Spectrum Float Spectrum] [SpectrumClass Float Spectrum]

namespace SamplerIntegrator

/-- The test `pdf > 0 && !f.IsBlack() && AbsDot(wi, ns) != 0` of both
specular helpers (lines 92 and 124). -/
def bounceValid (s : BSDFSample Float Spectrum) (ns : Normal3 Float) : Bool :=
  decide (s.pdf > 0) && !SpectrumClass.IsBlack s.f && decide (AbsDotVN s.wi ns ≠ 0)

/-- The ray differential `rd` of `SpecularReflect` after lines 94-108. -/
def SpecularReflect.rd (ray : RayDifferential Float) (isect : SurfaceInteraction Float Spectrum)
    (wi : Vector3 Float) : RayDifferential Float :=
  let wo := isect.wo
  let ns := isect.shading.n
  let rd := RayDifferential.ofRay (isect.SpawnRay wi)
  if ray.hasDifferentials then
    let dndx := isect.shading.dndu * isect.dudx + isect.shading.dndv * isect.dvdx
    let dndy := isect.shading.dndu * isect.dudy + isect.shading.dndv * isect.dvdy
    let dwodx := -ray.rxDirection - wo
    let dwody := -ray.ryDirection - wo
    let dDNdx := DotVN dwodx ns + DotVN wo dndx
    let dDNdy := DotVN dwody ns + DotVN wo dndy
    { rd with
      hasDifferentials := true
      rxOrigin := isect.p + isect.dpdx
      ryOrigin := isect.p + isect.dpdy
      rxDirection := wi - dwodx + (2 : Float) * Vector3.ofNormal (DotVN wo ns * dndx + dDNdx * ns)
      ryDirection := wi - dwody + (2 : Float) * Vector3.ofNormal (DotVN wo ns * dndy + dDNdy * ns) }
  else rd

/-- The method `SamplerIntegrator::SpecularReflect` (lines 80-111).  When the
test of line 92 fails, control reaches the closing brace of the function
without a `return`, so the returned value is indeterminate. -/
def SpecularReflect (Li : LiFn Float Spectrum) (ray : RayDifferential Float)
    (isect : SurfaceInteraction Float Spectrum) (scene : Scene Float Spectrum)
    (sampler : Sampler Float) (depth : Int) : Outcome Float Spectrum :=
  let wo := isect.wo
  let type := BSDF_REFLECTION.or BSDF_SPECULAR
  let u := sampler.Get2D
  let s := isect.bsdf.Sample_f wo u.1 type
  let ns := isect.shading.n
  if bounceValid s ns then
    let rd := SpecularReflect.rd ray isect s.wi
    let r := Li rd scene u.2 (depth + 1)
    { value := r.value.map fun LiValue => s.f * LiValue * AbsDotVN s.wi ns / s.pdf
      sampler := r.sampler
      calls := Call.Li rd (depth + 1) :: r.calls }
  else
    { value := none, sampler := u.2, calls := [] }

/-- The locals of `SpecularTransmit` at the end of the block guarded by
`if (ray.hasDifferentials)` (lines 128-186). -/
structure TransmitLocals (Float : Type) where
  eta : Float
  ns : Normal3 Float
  dndx : Normal3 Float
  dndy : Normal3 Float
  mu : Float
  dmudx : Float
  dmudy : Float
  rd : RayDifferential Float

/-- The block guarded by `if (ray.hasDifferentials)` in `SpecularTransmit`
(lines 128-186), run on the ray differential `rd` of line 126. -/
def SpecularTransmit.differentials (ray : RayDifferential Float)
    (isect : SurfaceInteraction Float Spectrum) (wi : Vector3 Float)
    (rd : RayDifferential Float) : TransmitLocals Float :=
  let wo := isect.wo
  let p := isect.p
  let ns := isect.shading.n
  let dndx := isect.shading.dndu * isect.dudx + isect.shading.dndv * isect.dvdx
  let dndy := isect.shading.dndu * isect.dudy + isect.shading.dndv * isect.dvdy
  let eta := 1 / isect.bsdf.eta
  let back : Bool := decide (DotVN wo ns < 0)
  let eta := if back then 1 / eta else eta
  let ns := if back then -ns else ns
  let dndx := if back then -dndx else dndx
  let dndy := if back then -dndy else dndy
  let dwodx := -ray.rxDirection - wo
  let dwody := -ray.ryDirection - wo
  let dDNdx := DotVN dwodx ns + DotVN wo dndx
  let dDNdy := DotVN dwody ns + DotVN wo dndy
  let mu := eta * DotVN wo ns - AbsDotVN wi ns
  let dmudx := (eta - (eta * eta * DotVN wo ns) / AbsDotVN wi ns) * dDNdx
  let dmudy := (eta - (eta * eta * DotVN wo ns) / AbsDotVN wi ns) * dDNdy
  { eta := eta, ns := ns, dndx := dndx, dndy := dndy, mu := mu, dmudx := dmudx, dmudy := dmudy
    rd :=
      { rd with
        hasDifferentials := true
        rxOrigin := p + isect.dpdx
        ryOrigin := p + isect.dpdy
        rxDirection := wi - eta * dwodx + Vector3.ofNormal (mu * dndx + dmudx * ns)
        ryDirection := wi - eta * dwody + Vector3.ofNormal (mu * dndy + dmudy * ns) } }

/-- The ray differential `rd` of `SpecularTransmit` at line 188. -/
def SpecularTransmit.rd (ray : RayDifferential Float) (isect : SurfaceInteraction Float Spectrum)
    (wi : Vector3 Float) : RayDifferential Float :=
  let rd := RayDifferential.ofRay (isect.SpawnRay wi)
  if ray.hasDifferentials then (SpecularTransmit.differentials ray isect wi rd).rd else rd

/-- The local `ns` of `SpecularTransmit` at line 188: the shading normal,
replaced by the one of the guarded block when that block ran. -/
def SpecularTransmit.ns (ray : RayDifferential Float) (isect : SurfaceInteraction Float Spectrum)
    (wi : Vector3 Float) : Normal3 Float :=
  let rd := RayDifferential.ofRay (isect.SpawnRay wi)
  if ray.hasDifferentials then (SpecularTransmit.differentials ray isect wi rd).ns
  else isect.shading.n

/-- The method `SamplerIntegrator::SpecularTransmit` (lines 113-191). -/
def SpecularTransmit (Li : LiFn Float Spectrum) (ray : RayDifferential Float)
    (isect : SurfaceInteraction Float Spectrum) (scene : Scene Float Spectrum)
    (sampler : Sampler Float) (depth : Int) : Outcome Float Spectrum :=
  let wo := isect.wo
  let u := sampler.Get2D
  let s := isect.bsdf.Sample_f wo u.1 (BSDF_TRANSMISSION.or BSDF_SPECULAR)
  let L : Spectrum := SpectrumClass.ofFloat 0
  if bounceValid s isect.shading.n then
    let rd := SpecularTransmit.rd ray isect s.wi
    let ns := SpecularTransmit.ns ray isect s.wi
    let r := Li rd scene u.2 (depth + 1)
    { value := r.value.map fun LiValue => s.f * LiValue * AbsDotVN s.wi ns / s.pdf
      sampler := r.sampler
      calls := Call.Li rd (depth + 1) :: r.calls }
  else
    { value := some L, sampler := u.2, calls := [] }

end SamplerIntegrator

namespace WhittedIntegrator

/-- One pass through the body of the loop `for (const auto& light : scene.lights)`
of `Li` (lines 27-36), acting on the accumulated `L` and the sampler. -/
def Li.addLight (scene : Scene Float Spectrum) (isect : SurfaceInteraction Float Spectrum)
    (wo : Vector3 Float) (n : Normal3 Float) (state : Spectrum × Sampler Float)
    (light : Light Float Spectrum) : Spectrum × Sampler Float :=
  let L := state.1
  let u := state.2.Get2D
  let ls := light.Sample_Li isect u.1
  if SpectrumClass.IsBlack ls.Li || decide (ls.pdf = 0) then (L, u.2)
  else
    let f := isect.bsdf.f wo ls.wi
    if !SpectrumClass.IsBlack f && ls.visibility.Unoccluded scene.aggregate then
      (L + f * ls.Li * AbsDotVN ls.wi n / ls.pdf, u.2)
    else (L, u.2)

/-- The part of `Li` on a hit between the request for the scattering
function and the specular recursion (lines 24-36): the emitted radiance plus
the contribution of every light.  `isect` is the interaction after
`ComputeScatteringFunction`; `wo` and `n` are the locals of lines 17-18. -/
def Li.direct (scene : Scene Float Spectrum) (sampler : Sampler Float)
    (isect : SurfaceInteraction Float Spectrum) (wo : Vector3 Float) (n : Normal3 Float) :
    Spectrum × Sampler Float :=
  let L : Spectrum := SpectrumClass.ofFloat 0
  let L := L + isect.Le wo
  scene.lights.foldl (Li.addLight scene isect wo n) (L, sampler)

/-- The body of `WhittedIntegrator::Li` (whitted.cpp lines 3-45), with the
function that the recursive calls inside the specular helpers dispatch to as
the parameter `Li`. -/
def LiBody (maxDepth : Int) (Li : LiFn Float Spectrum) : LiFn Float Spectrum :=
  fun ray scene sampler depth =>
    let L : Spectrum := SpectrumClass.ofFloat 0
    match scene.Intersect ray.toRay with
    | none =>
      { value := some (scene.lights.foldl (fun L light => L + light.Le ray) L)
        sampler := sampler
        calls := [] }
    | some isect0 =>
      let n := isect0.shading.n
      let wo := isect0.wo
      let isect := scene.aggregate.ComputeScatteringFunction isect0 ray
      let d := WhittedIntegrator.Li.direct scene sampler isect wo n
      if depth + 1 < maxDepth then
        let r := SamplerIntegrator.SpecularReflect Li ray isect scene d.2 depth
        let t := SamplerIntegrator.SpecularTransmit Li ray isect scene r.sampler depth
        { value := do
            let reflected ← r.value
            let transmitted ← t.value
            pure (d.1 + reflected + transmitted)
          sampler := t.sampler
          calls := Call.SpecularReflect depth :: r.calls ++ Call.SpecularTransmit depth :: t.calls }
      else
        { value := some d.1, sampler := d.2, calls := [] }

/-- The recursion of `Li` unrolled `fuel + 1` times; the innermost level
makes no recursive call when `fuel` is at least `maxDepth - depth`. -/
def LiFuel (maxDepth : Int) : Nat → LiFn Float Spectrum
  | 0 => LiBody maxDepth fun _ _ sampler _ => { value := none, sampler := sampler, calls := [] }
  | fuel + 1 => LiBody maxDepth (LiFuel maxDepth fuel)

/-- The method `WhittedIntegrator::Li`, with the member `maxDepth` as first
argument.  The recursion is unrolled `maxDepth - depth` times, which is the
bound that the test `depth + 1 < maxDepth` enforces. -/
def Li (maxDepth : Int) : LiFn Float Spectrum :=
  fun ray scene sampler depth => LiFuel maxDepth (maxDepth - depth).toNat ray scene sampler depth

/-- The direct lighting as the spec words it: starting from `L`, every light
of the scene draws its sample from the sampler in turn, and the lights chosen
by `select` add `f(wo,wi) * Li * |wi . n| / pdf`. -/
def sumOverLights (select : LightSample Float Spectrum → Spectrum → Bool)
    (scene : Scene Float Spectrum) (isect : SurfaceInteraction Float Spectrum)
    (wo : Vector3 Float) (n : Normal3 Float) (L : Spectrum) (sampler : Sampler Float) :
    Spectrum × Sampler Float :=
  scene.lights.foldl
    (fun state light =>
      let ls := light.Sample_Li isect state.2.Get2D.1
      let f := isect.bsdf.f wo ls.wi
      (if select ls f then state.1 + f * ls.Li * AbsDotVN ls.wi n / ls.pdf else state.1,
        state.2.Get2D.2))
    (L, sampler)

/-- The lights "whose sampled pdf is non-zero, whose BSDF value `f(wo,wi)` is
non-black and whose visibility test is unoccluded". -/
def selectPdfBsdfVisible (scene : Scene Float Spectrum) (ls : LightSample Float Spectrum)
    (f : Spectrum) : Bool :=
  decide (ls.pdf ≠ 0) && !SpectrumClass.IsBlack f && ls.visibility.Unoccluded scene.aggregate

/-- The lights of `selectPdfBsdfVisible` whose sampled radiance `Li` is
non-black as well. -/
def selectLit (scene : Scene Float Spectrum) (ls : LightSample Float Spectrum)
    (f : Spectrum) : Bool :=
  !SpectrumClass.IsBlack ls.Li && selectPdfBsdfVisible scene ls f

end WhittedIntegrator

namespace SamplerIntegrator

/-- The struct `CameraSample`, of which `Render` reads `pFilm`. -/
structure CameraSample (Float : Type) where
  pFilm : Point2 Float

/-- Modelled from the spec: the camera operation
`GenerateRayDifferential(cameraSample) -> (ray, weight)`. -/
structure Camera (Float : Type) where
  GenerateRayDifferential : CameraSample Float → Float × RayDifferential Float

/-- The arguments of one call `filmTile->AddSample(pFilm, L, rayWeight)`. -/
structure AddSample (Float Spectrum : Type) where
  pFilm : Point2 Float
  L : Option Spectrum
  sampleWeight : Float

/-- The sanitize step of `Render` (lines 50-64) on the radiance `L`. -/
def Render.sanitize (L : Spectrum) : Spectrum :=
  if SpectrumClass.HasNaNs L then SpectrumClass.ofFloat (0 : Float)
  else if SpectrumClass.y L < (-1e-5 : Float) then SpectrumClass.ofFloat (0 : Float)
  else if CMath.isinf (SpectrumClass.y L) then SpectrumClass.ofFloat (0 : Float)
  else L

/-- The result of one pass through the sample loop of `Render`: the sample
handed to the film tile, the sampler afterwards and the calls of `Li`. -/
structure SampleStep (Float Spectrum : Type) where
  added : AddSample Float Spectrum
  sampler : Sampler Float
  calls : List (Call Float)

/-- One pass through the body of the `do ... while` loop of `Render`
(lines 39-67) for the camera sample `cameraSample`.  `Li` is the virtual `Li` of the integrator, called with the
default `depth = 0`; `ScaleDifferentials` and `sqrt` stand for
`RayDifferential::ScaleDifferentials` and `std::sqrt`. -/
def Render.sample (Li : LiFn Float Spectrum)
    (ScaleDifferentials : RayDifferential Float → Float → RayDifferential Float)
    (sqrt : Float → Float) (camera : Camera Float) (scene : Scene Float Spectrum)
    (tileSampler : Sampler Float) (cameraSample : CameraSample Float) :
    SampleStep Float Spectrum :=
  let g := camera.GenerateRayDifferential cameraSample
  let rayWeight := g.1
  let ray := ScaleDifferentials g.2 (1 / sqrt (tileSampler.samplesPerPixel : Float))
  let L : Spectrum := SpectrumClass.ofFloat 0
  let r : Outcome Float Spectrum :=
    if rayWeight > 0 then
      let r := Li ray scene tileSampler 0
      { r with calls := Call.Li ray 0 :: r.calls }
    else { value := some L, sampler := tileSampler, calls := [] }
  { added := { pFilm := cameraSample.pFilm, L := r.value.map Render.sanitize, sampleWeight := rayWeight }
    sampler := r.sampler
    calls := r.calls }

end SamplerIntegrator

end Integrators

/-! ## A small concrete scene

One mirror-like surface that every downward ray hits, and one light, over
`FloatVal` and `RGBSpectrum FloatVal`. -/

namespace Sample

/-- The scalar type of the concrete scene. -/
abbrev F := FloatVal

/-- The spectrum type of the concrete scene. -/
abbrev S := RGBSpectrum FloatVal

/-- A scattering function with one specular reflection lobe of value 1/2
towards `+z` and no transmission. -/
def bsdf : BSDF F S where
  eta := FloatVal.fin 1
  f := fun _ _ => ⟨FloatVal.fin (1 / 4), FloatVal.fin (1 / 4), FloatVal.fin (1 / 4)⟩
  Sample_f := fun _ _ type =>
    if type.reflection then
      { f := ⟨FloatVal.fin (1 / 2), FloatVal.fin (1 / 2), FloatVal.fin (1 / 2)⟩
        wi := ⟨FloatVal.fin 0, FloatVal.fin 0, FloatVal.fin 1⟩
        pdf := FloatVal.fin 1 }
    else
      { f := ⟨FloatVal.fin 0, FloatVal.fin 0, FloatVal.fin 0⟩
        wi := ⟨FloatVal.fin 0, FloatVal.fin 0, FloatVal.fin 0⟩
        pdf := FloatVal.fin 0 }

/-- The interaction at the origin of the plane `z = 0`, seen from above;
the surface does not emit. -/
def isect : SurfaceInteraction F S where
  p := ⟨FloatVal.fin 0, FloatVal.fin 0, FloatVal.fin 0⟩
  wo := ⟨FloatVal.fin 0, FloatVal.fin 0, FloatVal.fin 1⟩
  n := ⟨FloatVal.fin 0, FloatVal.fin 0, FloatVal.fin 1⟩
  shading :=
    { n := ⟨FloatVal.fin 0, FloatVal.fin 0, FloatVal.fin 1⟩
      dndu := ⟨FloatVal.fin 0, FloatVal.fin 0, FloatVal.fin 0⟩
      dndv := ⟨FloatVal.fin 0, FloatVal.fin 0, FloatVal.fin 0⟩ }
  dpdx := ⟨FloatVal.fin 1, FloatVal.fin 0, FloatVal.fin 0⟩
  dpdy := ⟨FloatVal.fin 0, FloatVal.fin 1, FloatVal.fin 0⟩
  dudx := FloatVal.fin 1
  dvdx := FloatVal.fin 0
  dudy := FloatVal.fin 0
  dvdy := FloatVal.fin 1
  bsdf := bsdf
  Le := fun _ => ⟨FloatVal.fin 0, FloatVal.fin 0, FloatVal.fin 0⟩
  SpawnRay := fun d => ⟨⟨FloatVal.fin 0, FloatVal.fin 0, FloatVal.fin 0⟩, d⟩

/-- The geometry: a ray hits the plane exactly when it points downwards. -/
def aggregate : Primitive F S where
  Intersect := fun ray => if ray.d.z < FloatVal.fin 0 then some isect else none
  IntersectP := fun ray => decide (ray.d.z < FloatVal.fin 0)
  ComputeScatteringFunction := fun si _ => si

/-- A light of radiance 2 arriving along `+z` with density 1, never occluded,
with background radiance 3. -/
def light : Light F S where
  Le := fun _ => ⟨FloatVal.fin 3, FloatVal.fin 3, FloatVal.fin 3⟩
  Sample_Li := fun _ _ =>
    { Li := ⟨FloatVal.fin 2, FloatVal.fin 2, FloatVal.fin 2⟩
      wi := ⟨FloatVal.fin 0, FloatVal.fin 0, FloatVal.fin 1⟩
      pdf := FloatVal.fin 1
      visibility := { Unoccluded := fun _ => true } }

/-- The scene with the plane and the one light. -/
def scene : Scene F S := { lights := [light], aggregate := aggregate }

/-- A sampler that always returns the centre of the unit square. -/
def sampler : Sampler F :=
  { samples := fun _ => ⟨FloatVal.fin (1 / 2), FloatVal.fin (1 / 2)⟩, index := 0
    samplesPerPixel := 1 }

/-- A ray without differentials that points straight down from height 1. -/
def rayDown : RayDifferential F :=
  RayDifferential.ofRay
    ⟨⟨FloatVal.fin 0, FloatVal.fin 0, FloatVal.fin 1⟩,
     ⟨FloatVal.fin 0, FloatVal.fin 0, FloatVal.fin (-1)⟩⟩

/-- A ray without differentials that points straight up from height 1. -/
def rayUp : RayDifferential F :=
  RayDifferential.ofRay
    ⟨⟨FloatVal.fin 0, FloatVal.fin 0, FloatVal.fin 1⟩,
     ⟨FloatVal.fin 0, FloatVal.fin 0, FloatVal.fin 1⟩⟩

/-- A scattering function whose value `f(wo, wi)` is infinite in every band
and which has no specular lobe. -/
def glareBsdf : BSDF F S where
  eta := FloatVal.fin 1
  f := fun _ _ => ⟨FloatVal.posInf, FloatVal.posInf, FloatVal.posInf⟩
  Sample_f := fun _ _ _ =>
    { f := ⟨FloatVal.fin 0, FloatVal.fin 0, FloatVal.fin 0⟩
      wi := ⟨FloatVal.fin 0, FloatVal.fin 0, FloatVal.fin 0⟩
      pdf := FloatVal.fin 0 }

/-- The interaction `isect` with the scattering function `glareBsdf`. -/
def glareIsect : SurfaceInteraction F S := { isect with bsdf := glareBsdf }

/-- The geometry in which every ray hits `glareIsect`. -/
def glareAggregate : Primitive F S where
  Intersect := fun _ => some glareIsect
  IntersectP := fun _ => true
  ComputeScatteringFunction := fun si _ => si

/-- A light whose sample carries no radiance: `Li` is black, the density is
1 and the visibility test reports unoccluded. -/
def darkLight : Light F S where
  Le := fun _ => ⟨FloatVal.fin 0, FloatVal.fin 0, FloatVal.fin 0⟩
  Sample_Li := fun _ _ =>
    { Li := ⟨FloatVal.fin 0, FloatVal.fin 0, FloatVal.fin 0⟩
      wi := ⟨FloatVal.fin 0, FloatVal.fin 0, FloatVal.fin 1⟩
      pdf := FloatVal.fin 1
      visibility := { Unoccluded := fun _ => true } }

/-- The scene with the geometry `glareAggregate` and the light `darkLight`. -/
def glareScene : Scene F S := { lights := [darkLight], aggregate := glareAggregate }

/-- A camera that reports weight zero for every sample. -/
def blindCamera : SamplerIntegrator.Camera F where
  GenerateRayDifferential := fun _ => (FloatVal.fin 0, rayDown)

/-- A transmitting surface over any scalar type: the sampled direction goes
straight through (`wi = -wo`) with value 1 and density 1, and the interior
index of refraction is `eta`. -/
def glassBsdf (F : Type) [Zero F] [One F] [Neg F] (eta : F) : BSDF F (RGBSpectrum F) where
  eta := eta
  f := fun _ _ => ⟨0, 0, 0⟩
  Sample_f := fun wo _ _ => { f := ⟨1, 1, 1⟩, wi := -wo, pdf := 1 }

/-- The interaction at the origin of the plane `z = 0` with the surface
`glassBsdf`, seen along `wo = (0, 0, woz)`; the shading normal is `+z` and
turns with the surface parameters. -/
def glassIsect (F : Type) [Zero F] [One F] [Neg F] (eta woz : F) :
    SurfaceInteraction F (RGBSpectrum F) where
  p := ⟨0, 0, 0⟩
  wo := ⟨0, 0, woz⟩
  n := ⟨0, 0, 1⟩
  shading := { n := ⟨0, 0, 1⟩, dndu := ⟨1, 0, 0⟩, dndv := ⟨0, 1, 0⟩ }
  dpdx := ⟨1, 0, 0⟩
  dpdy := ⟨0, 1, 0⟩
  dudx := 1
  dvdx := 0
  dudy := 0
  dvdy := 1
  bsdf := glassBsdf F eta
  Le := fun _ => ⟨0, 0, 0⟩
  SpawnRay := fun d => ⟨⟨0, 0, 0⟩, d⟩

/-- A downward ray with valid differentials over any scalar type. -/
def diffRay (F : Type) [Zero F] [One F] [Neg F] : RayDifferential F where
  o := ⟨0, 0, 1⟩
  d := ⟨0, 0, -1⟩
  hasDifferentials := true
  rxOrigin := ⟨1, 0, 1⟩
  ryOrigin := ⟨0, 1, 1⟩
  rxDirection := ⟨1, 0, -1⟩
  ryDirection := ⟨0, 1, -1⟩

/-- The scene in which every ray hits `glassIsect`, without lights. -/
def glassScene (F : Type) [Zero F] [One F] [Neg F] (eta woz : F) : Scene F (RGBSpectrum F) where
  lights := []
  aggregate :=
    { Intersect := fun _ => some (glassIsect F eta woz)
      IntersectP := fun _ => true
      ComputeScatteringFunction := fun si _ => si }

end Sample

/-! ## Theorems -/

section TileGeometry

open SamplerIntegrator

/-- Along one axis, a coordinate of the sample range lies in the tile whose
index is the quotient of its offset by the tile size, and that index is run. -/
theorem tile_axis_exists (lo hi v : Int) (h1 : lo ≤ v) (h2 : v < hi) :
    (0 ≤ (v - lo) / 16 ∧ (v - lo) / 16 < (hi - lo + 16 - 1) / 16) ∧
      lo + (v - lo) / 16 * 16 ≤ v ∧ v < min (lo + (v - lo) / 16 * 16 + 16) hi := by
  refine ⟨⟨by omega, by omega⟩, by omega, ?_⟩
  rw [lt_min_iff]
  exact ⟨by omega, h2⟩

/-- Along one axis, the tile that holds a coordinate is determined by it. -/
theorem tile_axis_unique (lo hi v t : Int) (h1 : lo + t * 16 ≤ v)
    (h2 : v < min (lo + t * 16 + 16) hi) : t = (v - lo) / 16 := by
  rw [lt_min_iff] at h2
  omega

/-- Along one axis, a tile with a non-negative index stays inside the range. -/
theorem tile_axis_inside (lo hi v t : Int) (h0 : 0 ≤ t) (h1 : lo + t * 16 ≤ v)
    (h2 : v < min (lo + t * 16 + 16) hi) : lo ≤ v ∧ v < hi := by
  rw [lt_min_iff] at h2
  omega

/-- The tile count of an axis with non-negative extent, as a floor division. -/
theorem nTiles_eq (sb : Bounds2i) (hx : sb.pMin.x ≤ sb.pMax.x) (hy : sb.pMin.y ≤ sb.pMax.y) :
    nTiles sb = ⟨(sb.pMax.x - sb.pMin.x + 16 - 1) / 16, (sb.pMax.y - sb.pMin.y + 16 - 1) / 16⟩ := by
  simp only [nTiles, Bounds2.Diagonal, Point2.sub, tileSize]
  rw [Int.tdiv_eq_ediv (by omega) (by omega), Int.tdiv_eq_ediv (by omega) (by omega)]

/-- The tiles partition the sample bounds for every tile count that is at
least `nTiles` on both axes: tiles beyond `nTiles` hold no pixel. -/
theorem tiles_partition_of_count_ge (sampleBounds : Bounds2i)
    (hx : sampleBounds.pMin.x ≤ sampleBounds.pMax.x)
    (hy : sampleBounds.pMin.y ≤ sampleBounds.pMax.y) (count : Point2i)
    (hcx : (nTiles sampleBounds).x ≤ count.x) (hcy : (nTiles sampleBounds).y ≤ count.y)
    (pixel : Point2i) :
    (Bounds2.InsideExclusive pixel sampleBounds →
        ∃! tile : Point2i, ParallelFor2D.Runs count tile ∧
          Bounds2.InsideExclusive pixel (tileBounds sampleBounds tile)) ∧
      (∀ tile : Point2i, ParallelFor2D.Runs count tile →
        Bounds2.InsideExclusive pixel (tileBounds sampleBounds tile) →
        Bounds2.InsideExclusive pixel sampleBounds) := by
  rw [nTiles_eq sampleBounds hx hy] at hcx hcy
  simp only [ParallelFor2D.Runs, Bounds2.InsideExclusive, tileBounds, tileSize]
  simp only at hcx hcy
  constructor
  · rintro ⟨⟨a1, a2⟩, ⟨b1, b2⟩⟩
    obtain ⟨rx, lx, ux⟩ := tile_axis_exists _ _ _ a1 a2
    obtain ⟨ry, ly, uy⟩ := tile_axis_exists _ _ _ b1 b2
    refine ⟨⟨(pixel.x - sampleBounds.pMin.x) / 16, (pixel.y - sampleBounds.pMin.y) / 16⟩,
      ⟨⟨⟨rx.1, lt_of_lt_of_le rx.2 hcx⟩, ⟨ry.1, lt_of_lt_of_le ry.2 hcy⟩⟩, ⟨lx, ux⟩, ⟨ly, uy⟩⟩, ?_⟩
    rintro ⟨tx, ty⟩ ⟨-, ⟨cx1, cx2⟩, ⟨cy1, cy2⟩⟩
    rw [tile_axis_unique _ _ _ tx cx1 cx2, tile_axis_unique _ _ _ ty cy1 cy2]
  · rintro ⟨tx, ty⟩ ⟨⟨r1, -⟩, ⟨r2, -⟩⟩ ⟨⟨cx1, cx2⟩, ⟨cy1, cy2⟩⟩
    exact ⟨tile_axis_inside _ _ _ tx r1 cx1 cx2, tile_axis_inside _ _ _ ty r2 cy1 cy2⟩

/-- C1: for sample bounds with `pMin <= pMax` on both axes, every pixel of the
sample bounds lies in the tile rectangle of exactly one tile index that
`ParallelFor2D` runs, and no such tile rectangle holds a pixel outside the
sample bounds. -/
theorem C1_tiles_partition_sample_bounds (sampleBounds : Bounds2i)
    (hx : sampleBounds.pMin.x ≤ sampleBounds.pMax.x)
    (hy : sampleBounds.pMin.y ≤ sampleBounds.pMax.y) (pixel : Point2i) :
    (Bounds2.InsideExclusive pixel sampleBounds →
        ∃! tile : Point2i, ParallelFor2D.Runs (nTiles sampleBounds) tile ∧
          Bounds2.InsideExclusive pixel (tileBounds sampleBounds tile)) ∧
      (∀ tile : Point2i, ParallelFor2D.Runs (nTiles sampleBounds) tile →
        Bounds2.InsideExclusive pixel (tileBounds sampleBounds tile) →
        Bounds2.InsideExclusive pixel sampleBounds) := by
  rw [nTiles_eq sampleBounds hx hy]
  simp only [ParallelFor2D.Runs, Bounds2.InsideExclusive, tileBounds, tileSize]
  constructor
  · rintro ⟨⟨a1, a2⟩, ⟨b1, b2⟩⟩
    obtain ⟨rx, lx, ux⟩ := tile_axis_exists _ _ _ a1 a2
    obtain ⟨ry, ly, uy⟩ := tile_axis_exists _ _ _ b1 b2
    refine ⟨⟨(pixel.x - sampleBounds.pMin.x) / 16, (pixel.y - sampleBounds.pMin.y) / 16⟩,
      ⟨⟨rx, ry⟩, ⟨lx, ux⟩, ⟨ly, uy⟩⟩, ?_⟩
    rintro ⟨tx, ty⟩ ⟨-, ⟨cx1, cx2⟩, ⟨cy1, cy2⟩⟩
    rw [tile_axis_unique _ _ _ tx cx1 cx2, tile_axis_unique _ _ _ ty cy1 cy2]
  · rintro ⟨tx, ty⟩ ⟨⟨r1, -⟩, ⟨r2, -⟩⟩ ⟨⟨cx1, cx2⟩, ⟨cy1, cy2⟩⟩
    exact ⟨tile_axis_inside _ _ _ tx r1 cx1 cx2, tile_axis_inside _ _ _ ty r2 cy1 cy2⟩

/-- C1 at the sample bounds `[0,40) x [0,20)` and the pixel `(17, 3)`. -/
theorem C1_tiles_partition_sample_bounds_witness :
    ((0 : Int) ≤ 40 ∧ (0 : Int) ≤ 20) ∧
    ((Bounds2.InsideExclusive ⟨17, 3⟩ (⟨⟨0, 0⟩, ⟨40, 20⟩⟩ : Bounds2i) →
        ∃! tile : Point2i, ParallelFor2D.Runs (nTiles ⟨⟨0, 0⟩, ⟨40, 20⟩⟩) tile ∧
          Bounds2.InsideExclusive ⟨17, 3⟩ (tileBounds ⟨⟨0, 0⟩, ⟨40, 20⟩⟩ tile)) ∧
      (∀ tile : Point2i, ParallelFor2D.Runs (nTiles ⟨⟨0, 0⟩, ⟨40, 20⟩⟩) tile →
        Bounds2.InsideExclusive ⟨17, 3⟩ (tileBounds ⟨⟨0, 0⟩, ⟨40, 20⟩⟩ tile) →
        Bounds2.InsideExclusive ⟨17, 3⟩ (⟨⟨0, 0⟩, ⟨40, 20⟩⟩ : Bounds2i))) :=
  ⟨⟨by decide, by decide⟩,
    C1_tiles_partition_sample_bounds ⟨⟨0, 0⟩, ⟨40, 20⟩⟩ (by decide) (by decide) ⟨17, 3⟩⟩

/-- C9: the sampler seeds of the tiles that `ParallelFor2D` runs are pairwise
different, and each lies in `[0, nTiles.x * nTiles.y)`. -/
theorem C9_tile_seeds_do_not_collide (sampleBounds : Bounds2i) (tile tile' : Point2i)
    (h : ParallelFor2D.Runs (nTiles sampleBounds) tile)
    (h' : ParallelFor2D.Runs (nTiles sampleBounds) tile') :
    (seed sampleBounds tile = seed sampleBounds tile' → tile = tile') ∧
      (0 ≤ seed sampleBounds tile ∧
        seed sampleBounds tile < (nTiles sampleBounds).x * (nTiles sampleBounds).y) := by
  obtain ⟨tx, ty⟩ := tile
  obtain ⟨tx', ty'⟩ := tile'
  simp only [ParallelFor2D.Runs] at h h'
  simp only [seed]
  generalize (nTiles sampleBounds).x = nx at h h' ⊢
  generalize (nTiles sampleBounds).y = ny at h h' ⊢
  obtain ⟨⟨x0, x1⟩, ⟨y0, y1⟩⟩ := h
  obtain ⟨⟨x0', x1'⟩, ⟨y0', y1'⟩⟩ := h'
  refine ⟨fun e => ?_, ?_, ?_⟩
  · have hy : ty = ty' := by
      rcases lt_trichotomy ty ty' with hlt | heq | hgt
      · have : (ty + 1) * nx ≤ ty' * nx :=
          Int.mul_le_mul_of_nonneg_right (by omega) (by omega)
        have e2 : (ty + 1) * nx = ty * nx + nx := by ring
        omega
      · exact heq
      · have : (ty' + 1) * nx ≤ ty * nx :=
          Int.mul_le_mul_of_nonneg_right (by omega) (by omega)
        have e2 : (ty' + 1) * nx = ty' * nx + nx := by ring
        omega
    subst hy
    have hx : tx = tx' := by omega
    subst hx
    rfl
  · have : 0 ≤ ty * nx := Int.mul_nonneg y0 (by omega)
    omega
  · have : (ty + 1) * nx ≤ ny * nx := Int.mul_le_mul_of_nonneg_right (by omega) (by omega)
    have e2 : (ty + 1) * nx = ty * nx + nx := by ring
    have e3 : ny * nx = nx * ny := by ring
    omega

/-- C9 at the sample bounds `[0,40) x [0,20)` and the tiles `(2, 1)`, `(0, 1)`. -/
theorem C9_tile_seeds_do_not_collide_witness :
    (ParallelFor2D.Runs (nTiles ⟨⟨0, 0⟩, ⟨40, 20⟩⟩) ⟨2, 1⟩ ∧
      ParallelFor2D.Runs (nTiles ⟨⟨0, 0⟩, ⟨40, 20⟩⟩) ⟨0, 1⟩) ∧
    ((seed ⟨⟨0, 0⟩, ⟨40, 20⟩⟩ ⟨2, 1⟩ = seed ⟨⟨0, 0⟩, ⟨40, 20⟩⟩ ⟨0, 1⟩ →
        (⟨2, 1⟩ : Point2i) = ⟨0, 1⟩) ∧
      (0 ≤ seed ⟨⟨0, 0⟩, ⟨40, 20⟩⟩ ⟨2, 1⟩ ∧
        seed ⟨⟨0, 0⟩, ⟨40, 20⟩⟩ ⟨2, 1⟩ <
          (nTiles ⟨⟨0, 0⟩, ⟨40, 20⟩⟩).x * (nTiles ⟨⟨0, 0⟩, ⟨40, 20⟩⟩).y)) :=
  ⟨⟨by decide, by decide⟩,
    C9_tile_seeds_do_not_collide ⟨⟨0, 0⟩, ⟨40, 20⟩⟩ ⟨2, 1⟩ ⟨0, 1⟩ (by decide) (by decide)⟩

end TileGeometry

section IntegratorTheorems

set_option linter.unusedSectionVars false

variable {Float Spectrum : Type}
variable [Zero Float] [One Float] [OfNat Float 2] [OfScientific Float] [IntCast Float]
variable [Add Float] [Sub Float] [Neg Float] [Mul Float] [Div Float]
variable [LT Float] [∀ a b : Float, Decidable (a < b)] [DecidableEq Float] [CMath Float]
variable [Add Spectrum] [Mul Spectrum] [HMul Spectrum Float Spectrum]
variable [HDiv Spectrum Float Spectrum] [SpectrumClass Float Spectrum]

open SamplerIntegrator WhittedIntegrator

/-- `SpecularReflect` depends on the virtual `Li` only through its values at
`depth + 1`. -/
theorem SpecularReflect_congr (Li1 Li2 : LiFn Float Spectrum) (depth : Int)
    (h : ∀ rd scene sampler, Li1 rd scene sampler (depth + 1) = Li2 rd scene sampler (depth + 1))
    (ray : RayDifferential Float) (isect : SurfaceInteraction Float Spectrum)
    (scene : Scene Float Spectrum) (sampler : Sampler Float) :
    SpecularReflect Li1 ray isect scene sampler depth =
      SpecularReflect Li2 ray isect scene sampler depth := by
  simp only [SpecularReflect, h]

/-- `SpecularTransmit` depends on the virtual `Li` only through its values at
`depth + 1`. -/
theorem SpecularTransmit_congr (Li1 Li2 : LiFn Float Spectrum) (depth : Int)
    (h : ∀ rd scene sampler, Li1 rd scene sampler (depth + 1) = Li2 rd scene sampler (depth + 1))
    (ray : RayDifferential Float) (isect : SurfaceInteraction Float Spectrum)
    (scene : Scene Float Spectrum) (sampler : Sampler Float) :
    SpecularTransmit Li1 ray isect scene sampler depth =
      SpecularTransmit Li2 ray isect scene sampler depth := by
  simp only [SpecularTransmit, h]

/-- The body of `Li` depends on the function it recurses into only through
that function's values at `depth + 1`. -/
theorem LiBody_congr (maxDepth : Int) (Li1 Li2 : LiFn Float Spectrum) (depth : Int)
    (h : ∀ rd scene sampler, Li1 rd scene sampler (depth + 1) = Li2 rd scene sampler (depth + 1))
    (ray : RayDifferential Float) (scene : Scene Float Spectrum) (sampler : Sampler Float) :
    LiBody maxDepth Li1 ray scene sampler depth = LiBody maxDepth Li2 ray scene sampler depth := by
  simp only [LiBody, SpecularReflect_congr Li1 Li2 depth h, SpecularTransmit_congr Li1 Li2 depth h]

/-- When the test `depth + 1 < maxDepth` fails, the body of `Li` does not
depend on the function it would recurse into. -/
theorem LiBody_at_bound (maxDepth : Int) (Li1 Li2 : LiFn Float Spectrum) (depth : Int)
    (hd : ¬ depth + 1 < maxDepth)
    (ray : RayDifferential Float) (scene : Scene Float Spectrum) (sampler : Sampler Float) :
    LiBody maxDepth Li1 ray scene sampler depth = LiBody maxDepth Li2 ray scene sampler depth := by
  simp only [LiBody, if_neg hd]

/-- Two unrollings of `Li` that are both at least `maxDepth - depth` deep
give the same result at `depth`. -/
theorem LiFuel_stable (maxDepth : Int) (f1 : Nat) :
    ∀ (f2 : Nat) (depth : Int), (maxDepth - depth).toNat ≤ f1 → (maxDepth - depth).toNat ≤ f2 →
      ∀ (ray : RayDifferential Float) (scene : Scene Float Spectrum) (sampler : Sampler Float),
        LiFuel maxDepth f1 ray scene sampler depth = LiFuel maxDepth f2 ray scene sampler depth := by
  induction f1 with
  | zero =>
    intro f2 depth h1 _ ray scene sampler
    have hd : ¬ depth + 1 < maxDepth := by omega
    cases f2 with
    | zero => rfl
    | succ f2 => exact LiBody_at_bound maxDepth _ _ depth hd ray scene sampler
  | succ f1 ih =>
    intro f2 depth h1 h2 ray scene sampler
    by_cases hd : depth + 1 < maxDepth
    · cases f2 with
      | zero => omega
      | succ f2 =>
        exact LiBody_congr maxDepth _ _ depth
          (fun rd sc sm => ih f2 (depth + 1) (by omega) (by omega) rd sc sm) ray scene sampler
    · cases f2 with
      | zero => exact LiBody_at_bound maxDepth _ _ depth hd ray scene sampler
      | succ f2 => exact LiBody_at_bound maxDepth _ _ depth hd ray scene sampler

/-- The recursion equation of `WhittedIntegrator::Li`: the function is its own
body with the recursive calls going to itself. -/
theorem Li_eq_LiBody (maxDepth : Int) (ray : RayDifferential Float)
    (scene : Scene Float Spectrum) (sampler : Sampler Float) (depth : Int) :
    Li maxDepth ray scene sampler depth = LiBody maxDepth (Li maxDepth) ray scene sampler depth := by
  by_cases hd : depth + 1 < maxDepth
  · obtain ⟨k, hk⟩ : ∃ k, (maxDepth - depth).toNat = k + 1 := ⟨(maxDepth - depth).toNat - 1, by omega⟩
    show LiFuel maxDepth (maxDepth - depth).toNat ray scene sampler depth = _
    rw [hk]
    refine LiBody_congr maxDepth _ _ depth (fun rd sc sm => ?_) ray scene sampler
    exact LiFuel_stable maxDepth k _ (depth + 1) (by omega) (le_refl _) rd sc sm
  · show LiFuel maxDepth (maxDepth - depth).toNat ray scene sampler depth = _
    cases (maxDepth - depth).toNat with
    | zero => exact LiBody_at_bound maxDepth _ _ depth hd ray scene sampler
    | succ k => exact LiBody_at_bound maxDepth _ _ depth hd ray scene sampler

/-- The calls made by `SpecularReflect`: none when the test of line 92 fails,
otherwise the one call of `Li` at `depth + 1` followed by the calls inside it. -/
theorem SpecularReflect_calls (Li' : LiFn Float Spectrum) (ray : RayDifferential Float)
    (isect : SurfaceInteraction Float Spectrum) (scene : Scene Float Spectrum)
    (sampler : Sampler Float) (depth : Int) :
    (SpecularReflect Li' ray isect scene sampler depth).calls =
      if bounceValid
          (isect.bsdf.Sample_f isect.wo sampler.Get2D.1 (BSDF_REFLECTION.or BSDF_SPECULAR))
          isect.shading.n then
        Call.Li (SpecularReflect.rd ray isect
            (isect.bsdf.Sample_f isect.wo sampler.Get2D.1 (BSDF_REFLECTION.or BSDF_SPECULAR)).wi)
          (depth + 1) ::
        (Li' (SpecularReflect.rd ray isect
            (isect.bsdf.Sample_f isect.wo sampler.Get2D.1 (BSDF_REFLECTION.or BSDF_SPECULAR)).wi)
          scene sampler.Get2D.2 (depth + 1)).calls
      else [] := by
  simp only [SpecularReflect]
  split <;> rfl

/-- The calls made by `SpecularTransmit`: none when the test of line 124
fails, otherwise the one call of `Li` at `depth + 1` followed by the calls
inside it. -/
theorem SpecularTransmit_calls (Li' : LiFn Float Spectrum) (ray : RayDifferential Float)
    (isect : SurfaceInteraction Float Spectrum) (scene : Scene Float Spectrum)
    (sampler : Sampler Float) (depth : Int) :
    (SpecularTransmit Li' ray isect scene sampler depth).calls =
      if bounceValid
          (isect.bsdf.Sample_f isect.wo sampler.Get2D.1 (BSDF_TRANSMISSION.or BSDF_SPECULAR))
          isect.shading.n then
        Call.Li (SpecularTransmit.rd ray isect
            (isect.bsdf.Sample_f isect.wo sampler.Get2D.1 (BSDF_TRANSMISSION.or BSDF_SPECULAR)).wi)
          (depth + 1) ::
        (Li' (SpecularTransmit.rd ray isect
            (isect.bsdf.Sample_f isect.wo sampler.Get2D.1 (BSDF_TRANSMISSION.or BSDF_SPECULAR)).wi)
          scene sampler.Get2D.2 (depth + 1)).calls
      else [] := by
  simp only [SpecularTransmit]
  split <;> rfl

/-- The calls made by the body of `Li`: none on a miss and none when the
test `depth + 1 < maxDepth` fails; otherwise the two helper calls, each
followed by the calls inside it. -/
theorem LiBody_calls (maxDepth : Int) (Li' : LiFn Float Spectrum) (ray : RayDifferential Float)
    (scene : Scene Float Spectrum) (sampler : Sampler Float) (depth : Int) :
    (LiBody maxDepth Li' ray scene sampler depth).calls =
      match scene.Intersect ray.toRay with
      | none => []
      | some isect0 =>
        if depth + 1 < maxDepth then
          Call.SpecularReflect depth ::
            (SpecularReflect Li' ray (scene.aggregate.ComputeScatteringFunction isect0 ray) scene
              (Li.direct scene sampler (scene.aggregate.ComputeScatteringFunction isect0 ray)
                isect0.wo isect0.shading.n).2 depth).calls ++
          Call.SpecularTransmit depth ::
            (SpecularTransmit Li' ray (scene.aggregate.ComputeScatteringFunction isect0 ray) scene
              (SpecularReflect Li' ray (scene.aggregate.ComputeScatteringFunction isect0 ray) scene
                (Li.direct scene sampler (scene.aggregate.ComputeScatteringFunction isect0 ray)
                  isect0.wo isect0.shading.n).2 depth).sampler depth).calls
        else [] := by
  simp only [LiBody]
  split
  · rfl
  · split <;> rfl

/-- If every call of `Li` inside the function recursed into lies strictly
between `depth + 1` and `maxDepth`, then every call of `Li` inside the body
lies between `depth + 1` and `maxDepth - 1`. -/
theorem LiBody_call_depths (maxDepth : Int) (Li' : LiFn Float Spectrum) (depth : Int)
    (h : ∀ rd scene sampler rd' d, Call.Li rd' d ∈ (Li' rd scene sampler (depth + 1)).calls →
      depth + 1 + 1 ≤ d ∧ d < maxDepth)
    (ray : RayDifferential Float) (scene : Scene Float Spectrum) (sampler : Sampler Float)
    (rd' : RayDifferential Float) (d : Int)
    (hm : Call.Li rd' d ∈ (LiBody maxDepth Li' ray scene sampler depth).calls) :
    depth + 1 ≤ d ∧ d < maxDepth := by
  rw [LiBody_calls] at hm
  split at hm
  · simp at hm
  · split at hm
    · rename_i hd
      simp only [List.mem_cons, List.mem_append, SpecularReflect_calls, SpecularTransmit_calls,
        reduceCtorEq, false_or] at hm
      rcases hm with hm | hm
      · split at hm
        · simp only [List.mem_cons, Call.Li.injEq] at hm
          rcases hm with ⟨-, rfl⟩ | hm
          · exact ⟨le_refl _, hd⟩
          · have := h _ _ _ _ _ hm
            omega
        · simp at hm
      · split at hm
        · simp only [List.mem_cons, Call.Li.injEq] at hm
          rcases hm with ⟨-, rfl⟩ | hm
          · exact ⟨le_refl _, hd⟩
          · have := h _ _ _ _ _ hm
            omega
        · simp at hm
    · simp at hm

/-- In every unrolling of `Li`, each call of `Li` is at a depth between
`depth + 1` and `maxDepth - 1`. -/
theorem LiFuel_call_depths (maxDepth : Int) (fuel : Nat) :
    ∀ (ray : RayDifferential Float) (scene : Scene Float Spectrum) (sampler : Sampler Float)
      (depth : Int) (rd' : RayDifferential Float) (d : Int),
      Call.Li rd' d ∈ (LiFuel maxDepth fuel ray scene sampler depth).calls →
        depth + 1 ≤ d ∧ d < maxDepth := by
  induction fuel with
  | zero =>
    intro ray scene sampler depth rd' d hm
    refine LiBody_call_depths maxDepth _ depth ?_ ray scene sampler rd' d hm
    intro _ _ _ _ _ hm'
    simp at hm'
  | succ fuel ih =>
    intro ray scene sampler depth rd' d hm
    refine LiBody_call_depths maxDepth _ depth ?_ ray scene sampler rd' d hm
    intro rd sc sm rd2 d2 hm'
    exact ih rd sc sm (depth + 1) rd2 d2 hm'

/-- C5: `WhittedIntegrator::Li` is a total function that satisfies the
recursion of the source, and unrolling the recursion further than
`maxDepth - depth` times does not change its result.  Each call of `Li` that a
specular helper makes is at depth exactly `depth + 1`; `Li` makes no call at
all when `depth + 1 < maxDepth` fails; and every call of `Li` in the whole
recursion is at a depth `d` with `depth + 1 <= d < maxDepth`. -/
theorem C5_Li_terminates (maxDepth : Int) (ray : RayDifferential Float)
    (scene : Scene Float Spectrum) (sampler : Sampler Float) (depth : Int) :
    Li maxDepth ray scene sampler depth = LiBody maxDepth (Li maxDepth) ray scene sampler depth ∧
    (∀ fuel : Nat, (maxDepth - depth).toNat ≤ fuel →
      LiFuel maxDepth fuel ray scene sampler depth = Li maxDepth ray scene sampler depth) ∧
    (∀ (Li' : LiFn Float Spectrum) (isect : SurfaceInteraction Float Spectrum)
        (sm : Sampler Float),
      ((SpecularReflect Li' ray isect scene sm depth).calls = [] ∨
        ∃ rd, (SpecularReflect Li' ray isect scene sm depth).calls =
          Call.Li rd (depth + 1) :: (Li' rd scene sm.Get2D.2 (depth + 1)).calls) ∧
      ((SpecularTransmit Li' ray isect scene sm depth).calls = [] ∨
        ∃ rd, (SpecularTransmit Li' ray isect scene sm depth).calls =
          Call.Li rd (depth + 1) :: (Li' rd scene sm.Get2D.2 (depth + 1)).calls)) ∧
    (¬ depth + 1 < maxDepth → (Li maxDepth ray scene sampler depth).calls = []) ∧
    (∀ (rd : RayDifferential Float) (d : Int),
      Call.Li rd d ∈ (Li maxDepth ray scene sampler depth).calls →
        depth + 1 ≤ d ∧ d < maxDepth ∧
          (maxDepth - d).toNat < (maxDepth - depth).toNat) := by
  refine ⟨Li_eq_LiBody maxDepth ray scene sampler depth, ?_, ?_, ?_, ?_⟩
  · intro fuel hf
    exact LiFuel_stable maxDepth fuel _ depth hf (le_refl _) ray scene sampler
  · intro Li' isect sm
    constructor
    · rw [SpecularReflect_calls]
      split
      · exact Or.inr ⟨_, rfl⟩
      · exact Or.inl rfl
    · rw [SpecularTransmit_calls]
      split
      · exact Or.inr ⟨_, rfl⟩
      · exact Or.inl rfl
  · intro hd
    rw [Li_eq_LiBody, LiBody_calls]
    split
    · rfl
    · rw [if_neg hd]
  · intro rd d hm
    have := LiFuel_call_depths maxDepth _ ray scene sampler depth rd d hm
    omega

/-- C5 on the concrete scene, for a ray that hits the mirror at depth 0 with
`maxDepth = 3`: the reflected ray is traced at depth 1 and leaves the scene. -/
theorem C5_Li_terminates_witness :
    Li 3 Sample.rayDown Sample.scene Sample.sampler 0 =
      LiBody 3 (Li 3) Sample.rayDown Sample.scene Sample.sampler 0 ∧
    (∀ rd d, Call.Li rd d ∈ (Li 3 Sample.rayDown Sample.scene Sample.sampler 0).calls →
      0 + 1 ≤ d ∧ d < 3 ∧ ((3 : Int) - d).toNat < ((3 : Int) - 0).toNat) ∧
    (Li 3 Sample.rayDown Sample.scene Sample.sampler 0).calls =
      [Call.SpecularReflect 0,
       Call.Li (RayDifferential.ofRay
          ⟨⟨FloatVal.fin 0, FloatVal.fin 0, FloatVal.fin 0⟩,
           ⟨FloatVal.fin 0, FloatVal.fin 0, FloatVal.fin 1⟩⟩) 1,
       Call.SpecularTransmit 0] :=
  ⟨(C5_Li_terminates 3 Sample.rayDown Sample.scene Sample.sampler 0).1,
   (C5_Li_terminates 3 Sample.rayDown Sample.scene Sample.sampler 0).2.2.2.2,
   by with_unfolding_all rfl⟩

/-- C4: when `depth + 1 >= maxDepth`, `Li` makes no call at all, so neither
specular helper is invoked, and it returns the radiance accumulated before the
specular step.  When `depth + 1 < maxDepth` and the ray hits a surface, the
calls of `Li` are the call of `SpecularReflect` with the same `depth`, then
the calls inside it, then the call of `SpecularTransmit` with the same
`depth`, then the calls inside it. -/
theorem C4_specular_only_below_bound (maxDepth : Int) (ray : RayDifferential Float)
    (scene : Scene Float Spectrum) (sampler : Sampler Float) (depth : Int) :
    (maxDepth ≤ depth + 1 →
      (Li maxDepth ray scene sampler depth).calls = [] ∧
      (Li maxDepth ray scene sampler depth).value =
        match scene.Intersect ray.toRay with
        | none =>
          some (scene.lights.foldl (fun L light => L + light.Le ray)
            (SpectrumClass.ofFloat (0 : Float)))
        | some isect0 =>
          some (Li.direct scene sampler (scene.aggregate.ComputeScatteringFunction isect0 ray)
            isect0.wo isect0.shading.n).1) ∧
    (depth + 1 < maxDepth → ∀ isect0, scene.Intersect ray.toRay = some isect0 →
      (Li maxDepth ray scene sampler depth).calls =
        Call.SpecularReflect depth ::
          (SpecularReflect (Li maxDepth) ray (scene.aggregate.ComputeScatteringFunction isect0 ray)
            scene (Li.direct scene sampler (scene.aggregate.ComputeScatteringFunction isect0 ray)
              isect0.wo isect0.shading.n).2 depth).calls ++
        Call.SpecularTransmit depth ::
          (SpecularTransmit (Li maxDepth) ray
            (scene.aggregate.ComputeScatteringFunction isect0 ray) scene
            (SpecularReflect (Li maxDepth) ray
              (scene.aggregate.ComputeScatteringFunction isect0 ray) scene
              (Li.direct scene sampler (scene.aggregate.ComputeScatteringFunction isect0 ray)
                isect0.wo isect0.shading.n).2 depth).sampler depth).calls) := by
  constructor
  · intro hd
    have hd' : ¬ depth + 1 < maxDepth := by omega
    rw [Li_eq_LiBody]
    simp only [LiBody, if_neg hd']
    split <;> exact ⟨rfl, rfl⟩
  · intro hd isect0 hi
    rw [Li_eq_LiBody, LiBody_calls, hi]
    simp only [if_pos hd]

/-- C4 on the concrete scene: at depth 0 with `maxDepth = 1` no call is made,
and with `maxDepth = 3` both helpers are called with depth 0. -/
theorem C4_specular_only_below_bound_witness :
    ((1 : Int) ≤ 0 + 1 ∧ (0 : Int) + 1 < 3 ∧
      Sample.scene.Intersect Sample.rayDown.toRay = some Sample.isect) ∧
    (Li 1 Sample.rayDown Sample.scene Sample.sampler 0).calls = [] ∧
    (Call.SpecularReflect 0 ∈ (Li 3 Sample.rayDown Sample.scene Sample.sampler 0).calls ∧
      Call.SpecularTransmit 0 ∈ (Li 3 Sample.rayDown Sample.scene Sample.sampler 0).calls) :=
  ⟨⟨by decide, by decide, rfl⟩,
   ((C4_specular_only_below_bound 1 Sample.rayDown Sample.scene Sample.sampler 0).1
      (by decide)).1,
   by
    rw [(C4_specular_only_below_bound 3 Sample.rayDown Sample.scene Sample.sampler 0).2
      (by decide) Sample.isect rfl]
    simp⟩

/-- C7: on a miss, `Li` returns the radiance obtained by adding `light.Le(ray)`
for every light of the scene, in order, to black, and makes no call, so
neither specular helper is invoked.  When nothing is ever hit and the scene
has a single light, the result is that light's `Le(ray)`, given that adding
a spectrum to black yields that spectrum. -/
theorem C7_miss_returns_sum_of_Le (maxDepth : Int) (ray : RayDifferential Float)
    (scene : Scene Float Spectrum) (sampler : Sampler Float) (depth : Int)
    (hmiss : scene.Intersect ray.toRay = none) :
    (Li maxDepth ray scene sampler depth).value =
        some (scene.lights.foldl (fun L light => L + light.Le ray)
          (SpectrumClass.ofFloat (0 : Float))) ∧
      (Li maxDepth ray scene sampler depth).calls = [] ∧
      ((∀ s : Spectrum, SpectrumClass.ofFloat (0 : Float) + s = s) →
        ∀ light, scene.lights = [light] →
          (Li maxDepth ray scene sampler depth).value = some (light.Le ray)) := by
  have hv : (Li maxDepth ray scene sampler depth).value =
      some (scene.lights.foldl (fun L light => L + light.Le ray)
        (SpectrumClass.ofFloat (0 : Float))) := by
    rw [Li_eq_LiBody]
    simp only [LiBody, hmiss]
  refine ⟨hv, ?_, ?_⟩
  · rw [Li_eq_LiBody, LiBody_calls, hmiss]
  · intro hz light hl
    rw [hv, hl, List.foldl_cons, List.foldl_nil, hz]

/-- C10: when the incoming ray has `hasDifferentials == false`, each specular
helper that passes its test calls `Li` once, at `depth + 1`, with the ray
differential that the conversion of `isect.SpawnRay(wi)` yields: the flag is
not set and no auxiliary origin or direction is written. -/
theorem C10_no_differentials_passed_on (Li' : LiFn Float Spectrum)
    (ray : RayDifferential Float) (isect : SurfaceInteraction Float Spectrum)
    (scene : Scene Float Spectrum) (sampler : Sampler Float) (depth : Int)
    (h : ray.hasDifferentials = false) :
    (∀ wi, SpecularReflect.rd ray isect wi = RayDifferential.ofRay (isect.SpawnRay wi)) ∧
    (∀ wi, SpecularTransmit.rd ray isect wi = RayDifferential.ofRay (isect.SpawnRay wi)) ∧
    (bounceValid (isect.bsdf.Sample_f isect.wo sampler.Get2D.1 (BSDF_REFLECTION.or BSDF_SPECULAR))
        isect.shading.n = true →
      (SpecularReflect Li' ray isect scene sampler depth).calls =
        Call.Li (RayDifferential.ofRay (isect.SpawnRay
            (isect.bsdf.Sample_f isect.wo sampler.Get2D.1
              (BSDF_REFLECTION.or BSDF_SPECULAR)).wi)) (depth + 1) ::
          (Li' (RayDifferential.ofRay (isect.SpawnRay
            (isect.bsdf.Sample_f isect.wo sampler.Get2D.1
              (BSDF_REFLECTION.or BSDF_SPECULAR)).wi)) scene sampler.Get2D.2 (depth + 1)).calls) ∧
    (bounceValid
        (isect.bsdf.Sample_f isect.wo sampler.Get2D.1 (BSDF_TRANSMISSION.or BSDF_SPECULAR))
        isect.shading.n = true →
      (SpecularTransmit Li' ray isect scene sampler depth).calls =
        Call.Li (RayDifferential.ofRay (isect.SpawnRay
            (isect.bsdf.Sample_f isect.wo sampler.Get2D.1
              (BSDF_TRANSMISSION.or BSDF_SPECULAR)).wi)) (depth + 1) ::
          (Li' (RayDifferential.ofRay (isect.SpawnRay
            (isect.bsdf.Sample_f isect.wo sampler.Get2D.1
              (BSDF_TRANSMISSION.or BSDF_SPECULAR)).wi)) scene sampler.Get2D.2
            (depth + 1)).calls) := by
  have hr : ∀ wi, SpecularReflect.rd ray isect wi = RayDifferential.ofRay (isect.SpawnRay wi) := by
    intro wi
    simp [SpecularReflect.rd, h]
  have ht : ∀ wi, SpecularTransmit.rd ray isect wi = RayDifferential.ofRay (isect.SpawnRay wi) := by
    intro wi
    simp [SpecularTransmit.rd, h]
  refine ⟨hr, ht, ?_, ?_⟩
  · intro hv
    rw [SpecularReflect_calls, if_pos hv, hr]
  · intro hv
    rw [SpecularTransmit_calls, if_pos hv, ht]

/-- C6: when the weight that the camera reports for a sample is not greater
than zero (as is every weight `<= 0`), the sample loop of `Render` makes no
call of `Li`, and the radiance in its `AddSample` call is `Spectrum(0.f)`. -/
theorem C6_nonpositive_weight_skips_Li (Li' : LiFn Float Spectrum)
    (ScaleDifferentials : RayDifferential Float → Float → RayDifferential Float)
    (sqrt : Float → Float) (camera : Camera Float) (scene : Scene Float Spectrum)
    (tileSampler : Sampler Float) (cameraSample : CameraSample Float)
    (hw : ¬ (camera.GenerateRayDifferential cameraSample).1 > 0) :
    (Render.sample Li' ScaleDifferentials sqrt camera scene tileSampler cameraSample).calls = [] ∧
      (Render.sample Li' ScaleDifferentials sqrt camera scene tileSampler cameraSample).added.L =
        some (SpectrumClass.ofFloat (0 : Float)) ∧
      (Render.sample Li' ScaleDifferentials sqrt camera scene tileSampler cameraSample).sampler =
        tileSampler := by
  simp only [Render.sample, if_neg hw, Option.map_some', Render.sanitize]
  refine ⟨trivial, ?_, trivial⟩
  congr 1
  split
  · rfl
  · split
    · rfl
    · split <;> rfl

/-- The loop body of `Li` adds the contribution of exactly the lights that
`selectLit` chooses. -/
theorem addLight_eq_select (scene : Scene Float Spectrum)
    (isect : SurfaceInteraction Float Spectrum) (wo : Vector3 Float) (n : Normal3 Float)
    (state : Spectrum × Sampler Float) (light : Light Float Spectrum) :
    Li.addLight scene isect wo n state light =
      (if selectLit scene (light.Sample_Li isect state.2.Get2D.1)
            (isect.bsdf.f wo (light.Sample_Li isect state.2.Get2D.1).wi) then
          state.1 + isect.bsdf.f wo (light.Sample_Li isect state.2.Get2D.1).wi *
            (light.Sample_Li isect state.2.Get2D.1).Li *
            AbsDotVN (light.Sample_Li isect state.2.Get2D.1).wi n /
            (light.Sample_Li isect state.2.Get2D.1).pdf
        else state.1,
        state.2.Get2D.2) := by
  simp only [Li.addLight, selectLit, selectPdfBsdfVisible]
  by_cases h1 : SpectrumClass.IsBlack (light.Sample_Li isect state.2.Get2D.1).Li = true
  · simp [h1]
  · by_cases h2 : (light.Sample_Li isect state.2.Get2D.1).pdf = 0
    · simp [h1, h2]
    · simp only [h1, h2, Bool.false_eq_true, decide_False, Bool.or_self, if_false,
        Bool.not_false, ne_eq, not_false_eq_true, decide_True, Bool.true_and, Bool.and_eq_true,
        Bool.not_eq_true']
      split <;> rfl

/-- The direct lighting computed by `Li` is the sum over the lights that
`selectLit` chooses. -/
theorem direct_eq_sumOverLights (scene : Scene Float Spectrum) (sampler : Sampler Float)
    (isect : SurfaceInteraction Float Spectrum) (wo : Vector3 Float) (n : Normal3 Float) :
    Li.direct scene sampler isect wo n =
      sumOverLights (selectLit scene) scene isect wo n
        (SpectrumClass.ofFloat (0 : Float) + isect.Le wo) sampler := by
  simp only [Li.direct, sumOverLights]
  congr 1
  funext state light
  exact addLight_eq_select scene isect wo n state light

/-- C8 (as amended): on a hit with `depth + 1 >= maxDepth`, `Li` returns the
emitted radiance `Le(wo)`, added to black, plus the sum of
`f(wo,wi) * Li * |wi . n| / pdf` over exactly the lights whose sampled radiance `Li` is non-black, whose
sampled pdf is non-zero, whose BSDF value is non-black and whose visibility
test is unoccluded, and makes no call.  For a non-emissive surface and one
such light the result is `f(wo,wi) * Li * |wi . n| / pdf`, given that adding a
spectrum to black yields that spectrum. -/
theorem C8_direct_lighting_at_bound (maxDepth : Int) (ray : RayDifferential Float)
    (scene : Scene Float Spectrum) (sampler : Sampler Float) (depth : Int)
    (isect0 : SurfaceInteraction Float Spectrum)
    (hhit : scene.Intersect ray.toRay = some isect0) (hd : maxDepth ≤ depth + 1) :
    (Li maxDepth ray scene sampler depth).value =
        some (sumOverLights (selectLit scene) scene
          (scene.aggregate.ComputeScatteringFunction isect0 ray) isect0.wo isect0.shading.n
          (SpectrumClass.ofFloat (0 : Float) +
            (scene.aggregate.ComputeScatteringFunction isect0 ray).Le isect0.wo) sampler).1 ∧
      (Li maxDepth ray scene sampler depth).calls = [] ∧
      ((∀ s : Spectrum, SpectrumClass.ofFloat (0 : Float) + s = s) →
        (scene.aggregate.ComputeScatteringFunction isect0 ray).Le isect0.wo =
          SpectrumClass.ofFloat (0 : Float) →
        ∀ light, scene.lights = [light] →
          selectLit scene
            (light.Sample_Li (scene.aggregate.ComputeScatteringFunction isect0 ray)
              sampler.Get2D.1)
            ((scene.aggregate.ComputeScatteringFunction isect0 ray).bsdf.f isect0.wo
              (light.Sample_Li (scene.aggregate.ComputeScatteringFunction isect0 ray)
                sampler.Get2D.1).wi) = true →
          (Li maxDepth ray scene sampler depth).value =
            some ((scene.aggregate.ComputeScatteringFunction isect0 ray).bsdf.f isect0.wo
                (light.Sample_Li (scene.aggregate.ComputeScatteringFunction isect0 ray)
                  sampler.Get2D.1).wi *
              (light.Sample_Li (scene.aggregate.ComputeScatteringFunction isect0 ray)
                sampler.Get2D.1).Li *
              AbsDotVN (light.Sample_Li (scene.aggregate.ComputeScatteringFunction isect0 ray)
                sampler.Get2D.1).wi isect0.shading.n /
              (light.Sample_Li (scene.aggregate.ComputeScatteringFunction isect0 ray)
                sampler.Get2D.1).pdf)) := by
  have hd' : ¬ depth + 1 < maxDepth := by omega
  have hv : (Li maxDepth ray scene sampler depth).value =
      some (sumOverLights (selectLit scene) scene
        (scene.aggregate.ComputeScatteringFunction isect0 ray) isect0.wo isect0.shading.n
        (SpectrumClass.ofFloat (0 : Float) +
          (scene.aggregate.ComputeScatteringFunction isect0 ray).Le isect0.wo) sampler).1 := by
    rw [Li_eq_LiBody]
    simp only [LiBody, hhit, if_neg hd', direct_eq_sumOverLights]
  refine ⟨hv, ?_, ?_⟩
  · rw [Li_eq_LiBody, LiBody_calls, hhit]
    simp only [if_neg hd']
  · intro hz hLe light hl hsel
    rw [hv]
    simp only [sumOverLights, hl, List.foldl_cons, List.foldl_nil, hsel, if_true, hLe, hz]

end IntegratorTheorems

section ConcreteScene

open SamplerIntegrator WhittedIntegrator

/-- Adding a value to zero yields that value, also for NaN and the infinities. -/
theorem FloatVal.fin_zero_add (x : FloatVal) : (0 : FloatVal) + x = x := by
  show FloatVal.add (FloatVal.fin 0) x = x
  cases x with
  | nan => rfl
  | negInf => rfl
  | posInf => rfl
  | fin q => simp [FloatVal.add]

/-- Adding an RGB spectrum to black yields that spectrum. -/
theorem RGBSpectrum.black_add (s : RGBSpectrum FloatVal) :
    (SpectrumClass.ofFloat (0 : FloatVal) : RGBSpectrum FloatVal) + s = s := by
  obtain ⟨r, g, b⟩ := s
  show (⟨(0 : FloatVal) + r, (0 : FloatVal) + g, (0 : FloatVal) + b⟩ : RGBSpectrum FloatVal) = _
  rw [FloatVal.fin_zero_add, FloatVal.fin_zero_add, FloatVal.fin_zero_add]

/-- C8 as stated fails: in the scene whose one light has a black sampled
radiance, density 1 and an unoccluded visibility test, on a surface whose
BSDF value is non-black (infinite), `Li` at depth 0 with `maxDepth = 1` skips
the light and returns black, whereas the sum over the lights with non-zero
pdf, non-black BSDF value and unoccluded visibility test is NaN. -/
theorem C8_counterexample_black_Li_is_skipped :
    (Sample.glareScene.Intersect Sample.rayDown.toRay = some Sample.glareIsect ∧
      (1 : Int) ≤ 0 + 1) ∧
    (Li 1 Sample.rayDown Sample.glareScene Sample.sampler 0).value =
      some (SpectrumClass.ofFloat (0 : FloatVal)) ∧
    (Li 1 Sample.rayDown Sample.glareScene Sample.sampler 0).value ≠
      some (sumOverLights (selectPdfBsdfVisible Sample.glareScene) Sample.glareScene
        (Sample.glareScene.aggregate.ComputeScatteringFunction Sample.glareIsect Sample.rayDown)
        Sample.glareIsect.wo Sample.glareIsect.shading.n
        (SpectrumClass.ofFloat (0 : FloatVal) +
          (Sample.glareScene.aggregate.ComputeScatteringFunction Sample.glareIsect
            Sample.rayDown).Le Sample.glareIsect.wo) Sample.sampler).1 := by
  refine ⟨⟨rfl, by decide⟩, ?_, ?_⟩
  · with_unfolding_all rfl
  · with_unfolding_all decide

/-- C8 (as amended) on the concrete scene with the mirror and the one light:
with `maxDepth = 1` at depth 0 the result is `f * Li * |wi . n| / pdf`. -/
theorem C8_direct_lighting_at_bound_witness :
    (Sample.scene.Intersect Sample.rayDown.toRay = some Sample.isect ∧ (1 : Int) ≤ 0 + 1) ∧
    (Li 1 Sample.rayDown Sample.scene Sample.sampler 0).calls = [] ∧
    (Li 1 Sample.rayDown Sample.scene Sample.sampler 0).value =
      some (Sample.isect.bsdf.f Sample.isect.wo
          (Sample.light.Sample_Li Sample.isect Sample.sampler.Get2D.1).wi *
        (Sample.light.Sample_Li Sample.isect Sample.sampler.Get2D.1).Li *
        AbsDotVN (Sample.light.Sample_Li Sample.isect Sample.sampler.Get2D.1).wi
          Sample.isect.shading.n /
        (Sample.light.Sample_Li Sample.isect Sample.sampler.Get2D.1).pdf) :=
  ⟨⟨rfl, by decide⟩,
   (C8_direct_lighting_at_bound 1 Sample.rayDown Sample.scene Sample.sampler 0 Sample.isect
      rfl (by decide)).2.1,
   (C8_direct_lighting_at_bound 1 Sample.rayDown Sample.scene Sample.sampler 0 Sample.isect
      rfl (by decide)).2.2 RGBSpectrum.black_add rfl Sample.light rfl
      (by with_unfolding_all rfl)⟩

/-- C7 on the concrete scene: the upward ray misses, and the result is the
background radiance of the one light. -/
theorem C7_miss_returns_sum_of_Le_witness :
    Sample.scene.Intersect Sample.rayUp.toRay = none ∧
    (Li 3 Sample.rayUp Sample.scene Sample.sampler 0).calls = [] ∧
    (Li 3 Sample.rayUp Sample.scene Sample.sampler 0).value =
      some (Sample.light.Le Sample.rayUp) :=
  ⟨rfl,
   (C7_miss_returns_sum_of_Le 3 Sample.rayUp Sample.scene Sample.sampler 0 rfl).2.1,
   (C7_miss_returns_sum_of_Le 3 Sample.rayUp Sample.scene Sample.sampler 0 rfl).2.2
      RGBSpectrum.black_add Sample.light rfl⟩

/-- C10 on the concrete scene: the downward ray has no differentials, the
reflection lobe passes the test, and `Li` is called with the spawned ray. -/
theorem C10_no_differentials_passed_on_witness :
    Sample.rayDown.hasDifferentials = false ∧
    (SpecularReflect (Li 3) Sample.rayDown Sample.isect Sample.scene Sample.sampler 0).calls =
      Call.Li (RayDifferential.ofRay (Sample.isect.SpawnRay
          (Sample.isect.bsdf.Sample_f Sample.isect.wo Sample.sampler.Get2D.1
            (BSDF_REFLECTION.or BSDF_SPECULAR)).wi)) (0 + 1) ::
        (Li 3 (RayDifferential.ofRay (Sample.isect.SpawnRay
          (Sample.isect.bsdf.Sample_f Sample.isect.wo Sample.sampler.Get2D.1
            (BSDF_REFLECTION.or BSDF_SPECULAR)).wi)) Sample.scene Sample.sampler.Get2D.2
          (0 + 1)).calls :=
  ⟨rfl,
   (C10_no_differentials_passed_on (Li 3) Sample.rayDown Sample.isect Sample.scene
      Sample.sampler 0 rfl).2.2.1 (by with_unfolding_all rfl)⟩

/-- C6 on the concrete scene, with a camera that reports weight zero. -/
theorem C6_nonpositive_weight_skips_Li_witness :
    ((Sample.blindCamera.GenerateRayDifferential ⟨⟨0, 0⟩⟩).1 ≤ 0 ∧
      ¬ (Sample.blindCamera.GenerateRayDifferential ⟨⟨0, 0⟩⟩).1 > 0) ∧
    (Render.sample (Li 3) (fun rd _ => rd) (fun x => x) Sample.blindCamera Sample.scene
      Sample.sampler ⟨⟨0, 0⟩⟩).calls = [] ∧
    (Render.sample (Li 3) (fun rd _ => rd) (fun x => x) Sample.blindCamera Sample.scene
      Sample.sampler ⟨⟨0, 0⟩⟩).added.L = some (SpectrumClass.ofFloat (0 : FloatVal)) :=
  ⟨⟨by decide, by decide⟩,
   (C6_nonpositive_weight_skips_Li (Li 3) (fun rd _ => rd) (fun x => x) Sample.blindCamera
      Sample.scene Sample.sampler ⟨⟨0, 0⟩⟩ (by decide)).1,
   (C6_nonpositive_weight_skips_Li (Li 3) (fun rd _ => rd) (fun x => x) Sample.blindCamera
      Sample.scene Sample.sampler ⟨⟨0, 0⟩⟩ (by decide)).2.1⟩

end ConcreteScene

section Sanitize

open SamplerIntegrator

/-- `HasNaNs()` holds exactly when some band is NaN. -/
theorem RGBSpectrum.HasNaNs_iff (L : RGBSpectrum FloatVal) :
    SpectrumClass.HasNaNs L = true ↔
      (L.r = FloatVal.nan ∨ L.g = FloatVal.nan ∨ L.b = FloatVal.nan) := by
  obtain ⟨r, g, b⟩ := L
  show (FloatVal.isNaN r || FloatVal.isNaN g || FloatVal.isNaN b) = true ↔ _
  cases r <;> cases g <;> cases b <;> simp [FloatVal.isNaN]

/-- `std::isinf` holds exactly for the two infinities. -/
theorem FloatVal.isinf_iff (x : FloatVal) :
    CMath.isinf x = true ↔ (x = FloatVal.posInf ∨ x = FloatVal.negInf) := by
  show FloatVal.isinf x = true ↔ _
  cases x <;> simp [FloatVal.isinf]

/-- The sanitize step as one case distinction on the three tests. -/
theorem sanitize_eq (L : RGBSpectrum FloatVal) :
    Render.sanitize L =
      if (L.r = FloatVal.nan ∨ L.g = FloatVal.nan ∨ L.b = FloatVal.nan) ∨
          L.y < (-1e-5 : FloatVal) ∨ (L.y = FloatVal.posInf ∨ L.y = FloatVal.negInf) then
        SpectrumClass.ofFloat (0 : FloatVal)
      else L := by
  have hy : SpectrumClass.y L = L.y := rfl
  simp only [Render.sanitize, RGBSpectrum.HasNaNs_iff, FloatVal.isinf_iff, hy]
  by_cases h1 : L.r = FloatVal.nan ∨ L.g = FloatVal.nan ∨ L.b = FloatVal.nan
  · simp only [h1, if_true, true_or]
  · by_cases h2 : L.y < (-1e-5 : FloatVal)
    · simp only [h1, h2, if_true, if_false, true_or, or_true]
    · by_cases h3 : L.y = FloatVal.posInf ∨ L.y = FloatVal.negInf
      · simp only [h1, h2, h3, if_true, if_false, or_true]
      · simp only [h1, h2, h3, if_false, or_self]

/-- The luminance is `+inf` when some band is `+inf` and no band is NaN or `-inf`. -/
theorem RGBSpectrum.y_posInf (L : RGBSpectrum FloatVal)
    (h : L.r = FloatVal.posInf ∨ L.g = FloatVal.posInf ∨ L.b = FloatVal.posInf)
    (hn : L.r ≠ FloatVal.nan ∧ L.g ≠ FloatVal.nan ∧ L.b ≠ FloatVal.nan)
    (hm : L.r ≠ FloatVal.negInf ∧ L.g ≠ FloatVal.negInf ∧ L.b ≠ FloatVal.negInf) :
    L.y = FloatVal.posInf := by
  obtain ⟨r, g, b⟩ := L
  show FloatVal.add (FloatVal.add (FloatVal.mul (FloatVal.fin 0.212671) r)
    (FloatVal.mul (FloatVal.fin 0.715160) g)) (FloatVal.mul (FloatVal.fin 0.072169) b) = _
  cases r <;> cases g <;> cases b <;>
    simp_all [FloatVal.mul, FloatVal.add, FloatVal.infTimes] <;> norm_num

/-- The luminance is `-inf` when some band is `-inf` and no band is NaN or `+inf`. -/
theorem RGBSpectrum.y_negInf (L : RGBSpectrum FloatVal)
    (h : L.r = FloatVal.negInf ∨ L.g = FloatVal.negInf ∨ L.b = FloatVal.negInf)
    (hn : L.r ≠ FloatVal.nan ∧ L.g ≠ FloatVal.nan ∧ L.b ≠ FloatVal.nan)
    (hm : L.r ≠ FloatVal.posInf ∧ L.g ≠ FloatVal.posInf ∧ L.b ≠ FloatVal.posInf) :
    L.y = FloatVal.negInf := by
  obtain ⟨r, g, b⟩ := L
  show FloatVal.add (FloatVal.add (FloatVal.mul (FloatVal.fin 0.212671) r)
    (FloatVal.mul (FloatVal.fin 0.715160) g)) (FloatVal.mul (FloatVal.fin 0.072169) b) = _
  cases r <;> cases g <;> cases b <;>
    simp_all [FloatVal.mul, FloatVal.add, FloatVal.infTimes] <;> norm_num

/-- C2 as stated fails: the radiance `(-1, 1, 1)` has a negative band and the
radiance `(+inf, -inf, 0)` has infinite bands, yet the sanitize step hands
both on unchanged, and neither is black. -/
theorem C2_counterexample_negative_band_kept :
    ((FloatVal.fin (-1) < 0 ∧
        Render.sanitize (⟨FloatVal.fin (-1), FloatVal.fin 1, FloatVal.fin 1⟩ : RGBSpectrum FloatVal) =
          ⟨FloatVal.fin (-1), FloatVal.fin 1, FloatVal.fin 1⟩) ∧
      (⟨FloatVal.fin (-1), FloatVal.fin 1, FloatVal.fin 1⟩ : RGBSpectrum FloatVal) ≠
        SpectrumClass.ofFloat (0 : FloatVal)) ∧
    ((CMath.isinf FloatVal.posInf = true ∧
        Render.sanitize (⟨FloatVal.posInf, FloatVal.negInf, FloatVal.fin 0⟩ : RGBSpectrum FloatVal) =
          ⟨FloatVal.posInf, FloatVal.negInf, FloatVal.fin 0⟩) ∧
      (⟨FloatVal.posInf, FloatVal.negInf, FloatVal.fin 0⟩ : RGBSpectrum FloatVal) ≠
        SpectrumClass.ofFloat (0 : FloatVal)) := by
  refine ⟨⟨⟨by decide, ?_⟩, ?_⟩, ⟨⟨rfl, ?_⟩, ?_⟩⟩ <;> with_unfolding_all decide

/-- C2 (as amended): the sanitize step replaces `L` by black when a band of
`L` is NaN, or the luminance `y()` is below `-1e-5`, or the luminance is
infinite.  The luminance is infinite in particular when some band is infinite
and no band is NaN or infinite with the opposite sign. -/
theorem C2_sanitize_blackens_by_luminance (L : RGBSpectrum FloatVal) :
    (((L.r = FloatVal.nan ∨ L.g = FloatVal.nan ∨ L.b = FloatVal.nan) ∨
        L.y < (-1e-5 : FloatVal) ∨ (L.y = FloatVal.posInf ∨ L.y = FloatVal.negInf)) →
      Render.sanitize L = SpectrumClass.ofFloat (0 : FloatVal)) ∧
    ((L.r = FloatVal.posInf ∨ L.g = FloatVal.posInf ∨ L.b = FloatVal.posInf) →
      (L.r ≠ FloatVal.nan ∧ L.g ≠ FloatVal.nan ∧ L.b ≠ FloatVal.nan) →
      (L.r ≠ FloatVal.negInf ∧ L.g ≠ FloatVal.negInf ∧ L.b ≠ FloatVal.negInf) →
      Render.sanitize L = SpectrumClass.ofFloat (0 : FloatVal)) ∧
    ((L.r = FloatVal.negInf ∨ L.g = FloatVal.negInf ∨ L.b = FloatVal.negInf) →
      (L.r ≠ FloatVal.nan ∧ L.g ≠ FloatVal.nan ∧ L.b ≠ FloatVal.nan) →
      (L.r ≠ FloatVal.posInf ∧ L.g ≠ FloatVal.posInf ∧ L.b ≠ FloatVal.posInf) →
      Render.sanitize L = SpectrumClass.ofFloat (0 : FloatVal)) := by
  refine ⟨fun h => ?_, fun h hn hm => ?_, fun h hn hm => ?_⟩
  · rw [sanitize_eq, if_pos h]
  · rw [sanitize_eq, if_pos (Or.inr (Or.inr (Or.inl (RGBSpectrum.y_posInf L h hn hm))))]
  · rw [sanitize_eq, if_pos (Or.inr (Or.inr (Or.inr (RGBSpectrum.y_negInf L h hn hm))))]

/-- C2 (as amended) at the radiance `(NaN, 0, 0)` and at `(+inf, 1, 0)`. -/
theorem C2_sanitize_blackens_by_luminance_witness :
    Render.sanitize (⟨FloatVal.nan, FloatVal.fin 0, FloatVal.fin 0⟩ : RGBSpectrum FloatVal) =
      SpectrumClass.ofFloat (0 : FloatVal) ∧
    Render.sanitize (⟨FloatVal.posInf, FloatVal.fin 1, FloatVal.fin 0⟩ : RGBSpectrum FloatVal) =
      SpectrumClass.ofFloat (0 : FloatVal) :=
  ⟨(C2_sanitize_blackens_by_luminance ⟨FloatVal.nan, FloatVal.fin 0, FloatVal.fin 0⟩).1
      (Or.inl (Or.inl rfl)),
   (C2_sanitize_blackens_by_luminance ⟨FloatVal.posInf, FloatVal.fin 1, FloatVal.fin 0⟩).2.1
      (Or.inl rfl) (by decide) (by decide)⟩

/-- C3: a radiance whose three bands are finite and non-negative passes the
sanitize step unchanged. -/
theorem C3_sanitize_keeps_finite_nonnegative (L : RGBSpectrum FloatVal)
    (hr : L.r.IsFinite ∧ 0 ≤ L.r) (hg : L.g.IsFinite ∧ 0 ≤ L.g) (hb : L.b.IsFinite ∧ 0 ≤ L.b) :
    Render.sanitize L = L := by
  obtain ⟨r, g, b⟩ := L
  cases r <;> first | exact False.elim hr.1 | skip
  cases g <;> first | exact False.elim hg.1 | skip
  cases b <;> first | exact False.elim hb.1 | skip
  rename_i r g b
  have hr' : (0 : ℚ) ≤ r := by
    have := hr.2
    change decide ((0 : ℚ) ≤ r) = true at this
    simpa using this
  have hg' : (0 : ℚ) ≤ g := by
    have := hg.2
    change decide ((0 : ℚ) ≤ g) = true at this
    simpa using this
  have hb' : (0 : ℚ) ≤ b := by
    have := hb.2
    change decide ((0 : ℚ) ≤ b) = true at this
    simpa using this
  have hy : (⟨FloatVal.fin r, FloatVal.fin g, FloatVal.fin b⟩ : RGBSpectrum FloatVal).y =
      FloatVal.fin (0.212671 * r + 0.715160 * g + 0.072169 * b) := rfl
  rw [sanitize_eq, if_neg]
  rw [hy]
  rintro (h | h | h)
  · simp at h
  · change decide (_ < _) = true at h
    simp only [decide_eq_true_eq] at h
    norm_num at h
    linarith
  · simp at h

/-- C3 at the radiance `(1/2, 0, 3)`. -/
theorem C3_sanitize_keeps_finite_nonnegative_witness :
    Render.sanitize (⟨FloatVal.fin (1 / 2), FloatVal.fin 0, FloatVal.fin 3⟩ : RGBSpectrum FloatVal) =
      ⟨FloatVal.fin (1 / 2), FloatVal.fin 0, FloatVal.fin 3⟩ :=
  C3_sanitize_keeps_finite_nonnegative ⟨FloatVal.fin (1 / 2), FloatVal.fin 0, FloatVal.fin 3⟩
    ⟨trivial, by with_unfolding_all decide⟩ ⟨trivial, by with_unfolding_all decide⟩
    ⟨trivial, by with_unfolding_all decide⟩

end Sanitize

section SpecularHelpers

set_option linter.unusedSectionVars false

variable {Float Spectrum : Type}
variable [Zero Float] [One Float] [OfNat Float 2] [OfScientific Float] [IntCast Float]
variable [Add Float] [Sub Float] [Neg Float] [Mul Float] [Div Float]
variable [LT Float] [∀ a b : Float, Decidable (a < b)] [DecidableEq Float] [CMath Float]
variable [Add Spectrum] [Mul Spectrum] [HMul Spectrum Float Spectrum]
variable [HDiv Spectrum Float Spectrum] [SpectrumClass Float Spectrum]

open SamplerIntegrator WhittedIntegrator

/-- The value returned by `SpecularReflect`: the weighted radiance of the
recursive call when the test of line 92 passes, indeterminate otherwise. -/
theorem SpecularReflect_value (Li' : LiFn Float Spectrum) (ray : RayDifferential Float)
    (isect : SurfaceInteraction Float Spectrum) (scene : Scene Float Spectrum)
    (sampler : Sampler Float) (depth : Int) :
    (SpecularReflect Li' ray isect scene sampler depth).value =
      if bounceValid
          (isect.bsdf.Sample_f isect.wo sampler.Get2D.1 (BSDF_REFLECTION.or BSDF_SPECULAR))
          isect.shading.n then
        (Li' (SpecularReflect.rd ray isect
            (isect.bsdf.Sample_f isect.wo sampler.Get2D.1 (BSDF_REFLECTION.or BSDF_SPECULAR)).wi)
          scene sampler.Get2D.2 (depth + 1)).value.map fun LiValue =>
            (isect.bsdf.Sample_f isect.wo sampler.Get2D.1 (BSDF_REFLECTION.or BSDF_SPECULAR)).f *
              LiValue *
              AbsDotVN
                (isect.bsdf.Sample_f isect.wo sampler.Get2D.1
                  (BSDF_REFLECTION.or BSDF_SPECULAR)).wi isect.shading.n /
              (isect.bsdf.Sample_f isect.wo sampler.Get2D.1 (BSDF_REFLECTION.or BSDF_SPECULAR)).pdf
      else none := by
  simp only [SpecularReflect]
  split <;> rfl

/-- The value returned by `SpecularTransmit`: the weighted radiance of the
recursive call when the test of line 124 passes, black otherwise. -/
theorem SpecularTransmit_value (Li' : LiFn Float Spectrum) (ray : RayDifferential Float)
    (isect : SurfaceInteraction Float Spectrum) (scene : Scene Float Spectrum)
    (sampler : Sampler Float) (depth : Int) :
    (SpecularTransmit Li' ray isect scene sampler depth).value =
      if bounceValid
          (isect.bsdf.Sample_f isect.wo sampler.Get2D.1 (BSDF_TRANSMISSION.or BSDF_SPECULAR))
          isect.shading.n then
        (Li' (SpecularTransmit.rd ray isect
            (isect.bsdf.Sample_f isect.wo sampler.Get2D.1 (BSDF_TRANSMISSION.or BSDF_SPECULAR)).wi)
          scene sampler.Get2D.2 (depth + 1)).value.map fun LiValue =>
            (isect.bsdf.Sample_f isect.wo sampler.Get2D.1 (BSDF_TRANSMISSION.or BSDF_SPECULAR)).f *
              LiValue *
              AbsDotVN
                (isect.bsdf.Sample_f isect.wo sampler.Get2D.1
                  (BSDF_TRANSMISSION.or BSDF_SPECULAR)).wi
                (SpecularTransmit.ns ray isect
                  (isect.bsdf.Sample_f isect.wo sampler.Get2D.1
                    (BSDF_TRANSMISSION.or BSDF_SPECULAR)).wi) /
              (isect.bsdf.Sample_f isect.wo sampler.Get2D.1
                (BSDF_TRANSMISSION.or BSDF_SPECULAR)).pdf
      else some (SpectrumClass.ofFloat (0 : Float)) := by
  simp only [SpecularTransmit]
  split <;> rfl

/-- The test of both helpers fails when the sampled pdf is zero, or the
sampled value is black, or `|wi . ns|` is zero. -/
theorem bounceValid_eq_false (hirr : ¬ ((0 : Float) > 0)) (s : BSDFSample Float Spectrum)
    (ns : Normal3 Float)
    (h : s.pdf = 0 ∨ SpectrumClass.IsBlack s.f = true ∨ AbsDotVN s.wi ns = 0) :
    bounceValid s ns = false := by
  simp only [bounceValid]
  rcases h with h | h | h
  · simp [h, hirr]
  · simp [h]
  · simp [h]

/-- The test of both helpers passes when the sampled pdf is positive, the
sampled value is not black and `|wi . ns|` is not zero. -/
theorem bounceValid_eq_true (s : BSDFSample Float Spectrum) (ns : Normal3 Float)
    (h1 : s.pdf > 0) (h2 : SpectrumClass.IsBlack s.f = false) (h3 : AbsDotVN s.wi ns ≠ 0) :
    bounceValid s ns = true := by
  simp [bounceValid, h1, h2, h3]

/-- C12: when the sampled pdf is zero, or the sampled BSDF value is black, or
`|wi . ns|` is exactly zero, `SpecularTransmit` returns `Spectrum(0.f)` and
makes no call, so `Li` is not invoked.  (Zero is not greater than zero in
`Float`.) -/
theorem C12_SpecularTransmit_black_without_bounce (hirr : ¬ ((0 : Float) > 0))
    (Li' : LiFn Float Spectrum) (ray : RayDifferential Float)
    (isect : SurfaceInteraction Float Spectrum) (scene : Scene Float Spectrum)
    (sampler : Sampler Float) (depth : Int)
    (h : (isect.bsdf.Sample_f isect.wo sampler.Get2D.1
            (BSDF_TRANSMISSION.or BSDF_SPECULAR)).pdf = 0 ∨
      SpectrumClass.IsBlack (isect.bsdf.Sample_f isect.wo sampler.Get2D.1
            (BSDF_TRANSMISSION.or BSDF_SPECULAR)).f = true ∨
      AbsDotVN (isect.bsdf.Sample_f isect.wo sampler.Get2D.1
            (BSDF_TRANSMISSION.or BSDF_SPECULAR)).wi isect.shading.n = 0) :
    (SpecularTransmit Li' ray isect scene sampler depth).value =
        some (SpectrumClass.ofFloat (0 : Float)) ∧
      (SpecularTransmit Li' ray isect scene sampler depth).calls = [] := by
  have hb := bounceValid_eq_false hirr _ isect.shading.n h
  constructor
  · rw [SpecularTransmit_value, hb]
    rfl
  · rw [SpecularTransmit_calls, hb]
    rfl

/-- When the test of line 92 fails, `SpecularReflect` makes no call and
reaches the end of the function without a `return`: its value is
indeterminate. -/
theorem SpecularReflect_without_bounce (hirr : ¬ ((0 : Float) > 0))
    (Li' : LiFn Float Spectrum) (ray : RayDifferential Float)
    (isect : SurfaceInteraction Float Spectrum) (scene : Scene Float Spectrum)
    (sampler : Sampler Float) (depth : Int)
    (h : (isect.bsdf.Sample_f isect.wo sampler.Get2D.1
            (BSDF_REFLECTION.or BSDF_SPECULAR)).pdf = 0 ∨
      SpectrumClass.IsBlack (isect.bsdf.Sample_f isect.wo sampler.Get2D.1
            (BSDF_REFLECTION.or BSDF_SPECULAR)).f = true ∨
      AbsDotVN (isect.bsdf.Sample_f isect.wo sampler.Get2D.1
            (BSDF_REFLECTION.or BSDF_SPECULAR)).wi isect.shading.n = 0) :
    (SpecularReflect Li' ray isect scene sampler depth).value = none ∧
      (SpecularReflect Li' ray isect scene sampler depth).calls = [] := by
  have hb := bounceValid_eq_false hirr _ isect.shading.n h
  constructor
  · rw [SpecularReflect_value, hb]
    rfl
  · rw [SpecularReflect_calls, hb]
    rfl

/-- The local `ns` of `SpecularTransmit` at line 188 is the shading normal or
its negation. -/
theorem SpecularTransmit_ns_cases (ray : RayDifferential Float)
    (isect : SurfaceInteraction Float Spectrum) (wi : Vector3 Float) :
    SpecularTransmit.ns ray isect wi = isect.shading.n ∨
      SpecularTransmit.ns ray isect wi = -isect.shading.n := by
  simp only [SpecularTransmit.ns, SpecularTransmit.differentials]
  by_cases hd : ray.hasDifferentials = true
  · by_cases hb : DotVN isect.wo isect.shading.n < 0
    · right
      simp [hd, hb]
    · left
      simp [hd, hb]
  · left
    simp [hd]

/-- C13: when the sampled pdf is positive, the sampled value `f` is not black
and `|wi . ns|` is not zero, `SpecularReflect` and `SpecularTransmit` each
return `f * Li(rd, depth + 1) * |wi . ns| / pdf` with `ns` the shading normal
of the surface.  For `SpecularTransmit` the factor `|wi . ns|` computed with
its local copy of `ns` equals the one computed with the shading normal,
whether or not the copy was negated, given that `|wi . (-n)| = |wi . n|`. -/
theorem C13_specular_weight (hneg : ∀ (v : Vector3 Float) (n : Normal3 Float),
      AbsDotVN v (-n) = AbsDotVN v n)
    (Li' : LiFn Float Spectrum) (ray : RayDifferential Float)
    (isect : SurfaceInteraction Float Spectrum) (scene : Scene Float Spectrum)
    (sampler : Sampler Float) (depth : Int) :
    (∀ s : BSDFSample Float Spectrum,
      s = isect.bsdf.Sample_f isect.wo sampler.Get2D.1 (BSDF_REFLECTION.or BSDF_SPECULAR) →
      s.pdf > 0 → SpectrumClass.IsBlack s.f = false → AbsDotVN s.wi isect.shading.n ≠ 0 →
      (SpecularReflect Li' ray isect scene sampler depth).value =
        (Li' (SpecularReflect.rd ray isect s.wi) scene sampler.Get2D.2 (depth + 1)).value.map
          fun LiValue => s.f * LiValue * AbsDotVN s.wi isect.shading.n / s.pdf) ∧
    (∀ s : BSDFSample Float Spectrum,
      s = isect.bsdf.Sample_f isect.wo sampler.Get2D.1 (BSDF_TRANSMISSION.or BSDF_SPECULAR) →
      s.pdf > 0 → SpectrumClass.IsBlack s.f = false → AbsDotVN s.wi isect.shading.n ≠ 0 →
      (SpecularTransmit Li' ray isect scene sampler depth).value =
        (Li' (SpecularTransmit.rd ray isect s.wi) scene sampler.Get2D.2 (depth + 1)).value.map
          fun LiValue => s.f * LiValue * AbsDotVN s.wi isect.shading.n / s.pdf) ∧
    (∀ wi : Vector3 Float,
      AbsDotVN wi (SpecularTransmit.ns ray isect wi) = AbsDotVN wi isect.shading.n) := by
  have hns : ∀ wi : Vector3 Float,
      AbsDotVN wi (SpecularTransmit.ns ray isect wi) = AbsDotVN wi isect.shading.n := by
    intro wi
    rcases SpecularTransmit_ns_cases ray isect wi with h | h
    · rw [h]
    · rw [h, hneg]
  refine ⟨?_, ?_, hns⟩
  · intro s hs h1 h2 h3
    subst hs
    rw [SpecularReflect_value, bounceValid_eq_true _ _ h1 h2 h3]
    rfl
  · intro s hs h1 h2 h3
    subst hs
    rw [SpecularTransmit_value, bounceValid_eq_true _ _ h1 h2 h3, hns]
    rfl

end SpecularHelpers

section SpecularConcrete

open SamplerIntegrator WhittedIntegrator

/-- Multiplying by a negated value negates the product, also for NaN and the
infinities. -/
theorem FloatVal.mul_neg_eq (a b : FloatVal) : a * (-b) = -(a * b) := by
  show FloatVal.mul a (FloatVal.neg b) = FloatVal.neg (FloatVal.mul a b)
  cases a <;> cases b <;> simp only [FloatVal.mul, FloatVal.neg, FloatVal.infTimes, mul_neg] <;>
    first
    | rfl
    | (split_ifs <;> simp_all <;>
        first
        | linarith
        | (rename_i h1 h2 h3; exact h2 (le_antisymm h3 h1)))

/-- The sum of two negated values is the negated sum. -/
theorem FloatVal.neg_add_neg (a b : FloatVal) : (-a) + (-b) = -(a + b) := by
  show FloatVal.add (FloatVal.neg a) (FloatVal.neg b) = FloatVal.neg (FloatVal.add a b)
  cases a <;> cases b <;> simp only [FloatVal.add, FloatVal.neg, neg_add]

/-- The absolute value of a negated value. -/
theorem FloatVal.abs_neg_eq (a : FloatVal) : CMath.abs (-a) = CMath.abs a := by
  show FloatVal.abs (FloatVal.neg a) = FloatVal.abs a
  cases a <;> simp [FloatVal.abs, FloatVal.neg]

/-- Negating the normal does not change `|v . n|`. -/
theorem FloatVal.AbsDotVN_neg (v : Vector3 FloatVal) (n : Normal3 FloatVal) :
    AbsDotVN v (-n) = AbsDotVN v n := by
  obtain ⟨a, b, c⟩ := v
  obtain ⟨x, y, z⟩ := n
  show CMath.abs (a * (-x) + b * (-y) + c * (-z)) = CMath.abs (a * x + b * y + c * z)
  rw [FloatVal.mul_neg_eq, FloatVal.mul_neg_eq, FloatVal.mul_neg_eq, FloatVal.neg_add_neg,
    FloatVal.neg_add_neg, FloatVal.abs_neg_eq]

/-- C11 fails on the code: on the surface `glareIsect`, whose scattering
function samples no specular lobe (pdf 0, black value), `SpecularReflect`
makes no call but returns an indeterminate value, not black, while
`SpecularTransmit` on the same input returns `Spectrum(0.f)`; the value of
`Li` at depth 0 with `maxDepth = 3` on that surface is indeterminate too. -/
theorem C11_SpecularReflect_returns_no_value :
    ((Sample.glareIsect.bsdf.Sample_f Sample.glareIsect.wo Sample.sampler.Get2D.1
        (BSDF_REFLECTION.or BSDF_SPECULAR)).pdf = 0 ∧
      SpectrumClass.IsBlack (Sample.glareIsect.bsdf.Sample_f Sample.glareIsect.wo
        Sample.sampler.Get2D.1 (BSDF_REFLECTION.or BSDF_SPECULAR)).f = true) ∧
    (SpecularReflect (Li 3) Sample.rayDown Sample.glareIsect Sample.glareScene
        Sample.sampler 0).calls = [] ∧
    (SpecularReflect (Li 3) Sample.rayDown Sample.glareIsect Sample.glareScene
        Sample.sampler 0).value = none ∧
    (SpecularReflect (Li 3) Sample.rayDown Sample.glareIsect Sample.glareScene
        Sample.sampler 0).value ≠ some (SpectrumClass.ofFloat (0 : FloatVal)) ∧
    (SpecularTransmit (Li 3) Sample.rayDown Sample.glareIsect Sample.glareScene
        Sample.sampler 0).value = some (SpectrumClass.ofFloat (0 : FloatVal)) ∧
    (Li 3 Sample.rayDown Sample.glareScene Sample.sampler 0).value = none := by
  refine ⟨⟨rfl, by with_unfolding_all rfl⟩, ?_, ?_, ?_, ?_, ?_⟩
  · with_unfolding_all rfl
  · with_unfolding_all rfl
  · with_unfolding_all decide
  · with_unfolding_all rfl
  · with_unfolding_all rfl

/-- C12 on the concrete scene: the mirror has no transmission lobe (pdf 0). -/
theorem C12_SpecularTransmit_black_without_bounce_witness :
    (¬ ((0 : FloatVal) > 0) ∧
      (Sample.isect.bsdf.Sample_f Sample.isect.wo Sample.sampler.Get2D.1
        (BSDF_TRANSMISSION.or BSDF_SPECULAR)).pdf = 0) ∧
    (SpecularTransmit (Li 3) Sample.rayDown Sample.isect Sample.scene Sample.sampler 0).value =
      some (SpectrumClass.ofFloat (0 : FloatVal)) ∧
    (SpecularTransmit (Li 3) Sample.rayDown Sample.isect Sample.scene Sample.sampler 0).calls =
      [] :=
  ⟨⟨by decide, rfl⟩,
   C12_SpecularTransmit_black_without_bounce (by decide) (Li 3) Sample.rayDown Sample.isect
     Sample.scene Sample.sampler 0 (Or.inl rfl)⟩

/-- C13 on the concrete scenes: the reflection off the mirror, and the
transmission through the glass surface seen from its back face with a ray that
carries differentials, where the local copy of `ns` is negated. -/
theorem C13_specular_weight_witness :
    (SpecularReflect (Li 3) Sample.rayDown Sample.isect Sample.scene Sample.sampler 0).value =
      (Li 3 (SpecularReflect.rd Sample.rayDown Sample.isect
          (Sample.isect.bsdf.Sample_f Sample.isect.wo Sample.sampler.Get2D.1
            (BSDF_REFLECTION.or BSDF_SPECULAR)).wi)
        Sample.scene Sample.sampler.Get2D.2 (0 + 1)).value.map
        (fun LiValue =>
          (Sample.isect.bsdf.Sample_f Sample.isect.wo Sample.sampler.Get2D.1
            (BSDF_REFLECTION.or BSDF_SPECULAR)).f * LiValue *
          AbsDotVN (Sample.isect.bsdf.Sample_f Sample.isect.wo Sample.sampler.Get2D.1
            (BSDF_REFLECTION.or BSDF_SPECULAR)).wi Sample.isect.shading.n /
          (Sample.isect.bsdf.Sample_f Sample.isect.wo Sample.sampler.Get2D.1
            (BSDF_REFLECTION.or BSDF_SPECULAR)).pdf) ∧
    (SpecularTransmit.ns (Sample.diffRay FloatVal) (Sample.glassIsect FloatVal 2 (-1))
        ⟨0, 0, 1⟩ = -(Sample.glassIsect FloatVal 2 (-1)).shading.n ∧
      (SpecularTransmit (Li 3) (Sample.diffRay FloatVal) (Sample.glassIsect FloatVal 2 (-1))
          (Sample.glassScene FloatVal 2 (-1)) Sample.sampler 0).value =
        (Li 3 (SpecularTransmit.rd (Sample.diffRay FloatVal) (Sample.glassIsect FloatVal 2 (-1))
            ((Sample.glassIsect FloatVal 2 (-1)).bsdf.Sample_f (Sample.glassIsect FloatVal 2 (-1)).wo
              Sample.sampler.Get2D.1 (BSDF_TRANSMISSION.or BSDF_SPECULAR)).wi)
          (Sample.glassScene FloatVal 2 (-1)) Sample.sampler.Get2D.2 (0 + 1)).value.map
          (fun LiValue =>
            ((Sample.glassIsect FloatVal 2 (-1)).bsdf.Sample_f (Sample.glassIsect FloatVal 2 (-1)).wo
              Sample.sampler.Get2D.1 (BSDF_TRANSMISSION.or BSDF_SPECULAR)).f * LiValue *
            AbsDotVN ((Sample.glassIsect FloatVal 2 (-1)).bsdf.Sample_f
              (Sample.glassIsect FloatVal 2 (-1)).wo Sample.sampler.Get2D.1
              (BSDF_TRANSMISSION.or BSDF_SPECULAR)).wi (Sample.glassIsect FloatVal 2 (-1)).shading.n /
            ((Sample.glassIsect FloatVal 2 (-1)).bsdf.Sample_f (Sample.glassIsect FloatVal 2 (-1)).wo
              Sample.sampler.Get2D.1 (BSDF_TRANSMISSION.or BSDF_SPECULAR)).pdf)) :=
  ⟨(C13_specular_weight FloatVal.AbsDotVN_neg (Li 3) Sample.rayDown Sample.isect Sample.scene
      Sample.sampler 0).1 _ rfl (by with_unfolding_all decide) (by with_unfolding_all rfl)
      (by with_unfolding_all decide),
   by with_unfolding_all rfl,
   (C13_specular_weight FloatVal.AbsDotVN_neg (Li 3) (Sample.diffRay FloatVal)
      (Sample.glassIsect FloatVal 2 (-1)) (Sample.glassScene FloatVal 2 (-1))
      Sample.sampler 0).2.1 _ rfl (by with_unfolding_all decide) (by with_unfolding_all rfl)
      (by with_unfolding_all decide)⟩

end SpecularConcrete

section TileBounds

open SamplerIntegrator

/-- C14: for sample bounds with non-negative extent on each axis, the tile
count of `Render` along each axis, `(extent + tileSize - 1) / tileSize` in
integer division with `tileSize = 16`, is the ceiling of `extent / tileSize`. -/
theorem C14_tile_count_is_ceiling (sampleBounds : Bounds2i)
    (hx : 0 ≤ sampleBounds.Diagonal.x) (hy : 0 ≤ sampleBounds.Diagonal.y) :
    ((nTiles sampleBounds).x = Int.tdiv (sampleBounds.Diagonal.x + 16 - 1) 16 ∧
      (nTiles sampleBounds).y = Int.tdiv (sampleBounds.Diagonal.y + 16 - 1) 16) ∧
    (nTiles sampleBounds).x = ⌈(sampleBounds.Diagonal.x : ℚ) / (tileSize : ℚ)⌉ ∧
    (nTiles sampleBounds).y = ⌈(sampleBounds.Diagonal.y : ℚ) / (tileSize : ℚ)⌉ := by
  have key : ∀ e : Int, 0 ≤ e → Int.tdiv (e + 16 - 1) 16 = ⌈(e : ℚ) / ((16 : Int) : ℚ)⌉ := by
    intro e he
    rw [Int.tdiv_eq_ediv (by omega) (by omega)]
    symm
    rw [Int.ceil_eq_iff]
    have h16 : (0 : ℚ) < ((16 : Int) : ℚ) := by norm_num
    have h1 : (e + 16 - 1) / 16 * 16 ≤ e + 15 := by omega
    have h2 : e < (e + 16 - 1) / 16 * 16 + 1 := by omega
    have h1q : (((e + 16 - 1) / 16 : Int) : ℚ) * 16 ≤ (e : ℚ) + 15 := by exact_mod_cast h1
    have h2q : (e : ℚ) < (((e + 16 - 1) / 16 : Int) : ℚ) * 16 + 1 := by exact_mod_cast h2
    have h3 : (e : ℚ) ≤ (((e + 16 - 1) / 16 : Int) : ℚ) * 16 := by
      have : e ≤ (e + 16 - 1) / 16 * 16 := by omega
      exact_mod_cast this
    constructor
    · rw [lt_div_iff₀ h16]
      push_cast
      linarith
    · rw [div_le_iff₀ h16]
      push_cast
      linarith
  refine ⟨⟨rfl, rfl⟩, ?_, ?_⟩
  · exact key _ hx
  · exact key _ hy

/-- C14 at the sample bounds `[0,40) x [0,20)`: 3 tiles by 2 tiles. -/
theorem C14_tile_count_is_ceiling_witness :
    ((0 : Int) ≤ (⟨⟨0, 0⟩, ⟨40, 20⟩⟩ : Bounds2i).Diagonal.x ∧
      (0 : Int) ≤ (⟨⟨0, 0⟩, ⟨40, 20⟩⟩ : Bounds2i).Diagonal.y) ∧
    nTiles ⟨⟨0, 0⟩, ⟨40, 20⟩⟩ = ⟨3, 2⟩ ∧
    (nTiles ⟨⟨0, 0⟩, ⟨40, 20⟩⟩).x =
      ⌈((⟨⟨0, 0⟩, ⟨40, 20⟩⟩ : Bounds2i).Diagonal.x : ℚ) / (tileSize : ℚ)⌉ ∧
    (nTiles ⟨⟨0, 0⟩, ⟨40, 20⟩⟩).y =
      ⌈((⟨⟨0, 0⟩, ⟨40, 20⟩⟩ : Bounds2i).Diagonal.y : ℚ) / (tileSize : ℚ)⌉ :=
  ⟨⟨by decide, by decide⟩, by decide,
   (C14_tile_count_is_ceiling ⟨⟨0, 0⟩, ⟨40, 20⟩⟩ (by decide) (by decide)).2⟩

/-- Along one axis, the tile of a run index is non-empty, inside the range,
at most 16 wide, and narrower only when it ends at the upper bound. -/
theorem tile_axis_bounds (lo hi t : Int) (h0 : 0 ≤ t) (h1 : t < (hi - lo + 16 - 1) / 16) :
    lo + t * 16 < min (lo + t * 16 + 16) hi ∧ lo ≤ lo + t * 16 ∧
      min (lo + t * 16 + 16) hi ≤ hi ∧ min (lo + t * 16 + 16) hi - (lo + t * 16) ≤ 16 ∧
      (min (lo + t * 16 + 16) hi - (lo + t * 16) < 16 → min (lo + t * 16 + 16) hi = hi) := by
  have hlt : lo + t * 16 < hi := by omega
  rcases le_total (lo + t * 16 + 16) hi with hle | hle
  · rw [min_eq_left hle]
    refine ⟨by omega, by omega, hle, by omega, fun h => by omega⟩
  · rw [min_eq_right hle]
    refine ⟨hlt, by omega, le_refl _, by omega, fun _ => rfl⟩

/-- C18: for sample bounds with positive extent on both axes and a tile index
that `ParallelFor2D` runs, the tile rectangle is non-empty, lies inside the
sample bounds, is at most 16 wide and 16 high, and is narrower or lower than
16 only where it ends at `pMax`. -/
theorem C18_tile_rectangle_shape (sampleBounds : Bounds2i)
    (hx : sampleBounds.pMin.x < sampleBounds.pMax.x)
    (hy : sampleBounds.pMin.y < sampleBounds.pMax.y) (tile : Point2i)
    (hrun : ParallelFor2D.Runs (nTiles sampleBounds) tile) :
    ((tileBounds sampleBounds tile).pMin.x < (tileBounds sampleBounds tile).pMax.x ∧
      (tileBounds sampleBounds tile).pMin.y < (tileBounds sampleBounds tile).pMax.y) ∧
    ((sampleBounds.pMin.x ≤ (tileBounds sampleBounds tile).pMin.x ∧
        sampleBounds.pMin.y ≤ (tileBounds sampleBounds tile).pMin.y) ∧
      ((tileBounds sampleBounds tile).pMax.x ≤ sampleBounds.pMax.x ∧
        (tileBounds sampleBounds tile).pMax.y ≤ sampleBounds.pMax.y)) ∧
    ((tileBounds sampleBounds tile).pMax.x - (tileBounds sampleBounds tile).pMin.x ≤ 16 ∧
      (tileBounds sampleBounds tile).pMax.y - (tileBounds sampleBounds tile).pMin.y ≤ 16) ∧
    (((tileBounds sampleBounds tile).pMax.x - (tileBounds sampleBounds tile).pMin.x < 16 →
        (tileBounds sampleBounds tile).pMax.x = sampleBounds.pMax.x) ∧
      ((tileBounds sampleBounds tile).pMax.y - (tileBounds sampleBounds tile).pMin.y < 16 →
        (tileBounds sampleBounds tile).pMax.y = sampleBounds.pMax.y)) := by
  rw [nTiles_eq sampleBounds (le_of_lt hx) (le_of_lt hy)] at hrun
  obtain ⟨⟨x0, x1⟩, ⟨y0, y1⟩⟩ := hrun
  simp only [tileBounds, tileSize]
  obtain ⟨a1, a2, a3, a4, a5⟩ := tile_axis_bounds _ _ _ x0 x1
  obtain ⟨b1, b2, b3, b4, b5⟩ := tile_axis_bounds _ _ _ y0 y1
  exact ⟨⟨a1, b1⟩, ⟨⟨a2, b2⟩, ⟨a3, b3⟩⟩, ⟨a4, b4⟩, ⟨a5, b5⟩⟩

/-- C18 at the sample bounds `[0,40) x [0,20)` and the last tile `(2, 1)`,
which is the rectangle `[32,40) x [16,20)`. -/
theorem C18_tile_rectangle_shape_witness :
    (((0 : Int) < 40 ∧ (0 : Int) < 20) ∧
      ParallelFor2D.Runs (nTiles ⟨⟨0, 0⟩, ⟨40, 20⟩⟩) ⟨2, 1⟩) ∧
    tileBounds ⟨⟨0, 0⟩, ⟨40, 20⟩⟩ ⟨2, 1⟩ = ⟨⟨32, 16⟩, ⟨40, 20⟩⟩ ∧
    ((tileBounds ⟨⟨0, 0⟩, ⟨40, 20⟩⟩ ⟨2, 1⟩).pMin.x < (tileBounds ⟨⟨0, 0⟩, ⟨40, 20⟩⟩ ⟨2, 1⟩).pMax.x ∧
      (tileBounds ⟨⟨0, 0⟩, ⟨40, 20⟩⟩ ⟨2, 1⟩).pMin.y <
        (tileBounds ⟨⟨0, 0⟩, ⟨40, 20⟩⟩ ⟨2, 1⟩).pMax.y) :=
  ⟨⟨⟨by decide, by decide⟩, by decide⟩, by decide,
   (C18_tile_rectangle_shape ⟨⟨0, 0⟩, ⟨40, 20⟩⟩ (by decide) (by decide) ⟨2, 1⟩ (by decide)).1⟩

end TileBounds

section InvocationCount

set_option linter.unusedSectionVars false

/-- The number of calls of `Li` in a concatenation of call records. -/
theorem countLi_append {Float : Type} (xs ys : List (Call Float)) :
    countLi (xs ++ ys) = countLi xs + countLi ys := by
  simp [countLi, List.countP_append]

/-- A call of a specular helper is not counted; a call of `Li` counts once. -/
theorem countLi_cons {Float : Type} (c : Call Float) (xs : List (Call Float)) :
    countLi (c :: xs) = countLi xs + (if c.isLi then 1 else 0) := by
  simp [countLi, List.countP_cons]

variable {Float Spectrum : Type}
variable [Zero Float] [One Float] [OfNat Float 2] [OfScientific Float] [IntCast Float]
variable [Add Float] [Sub Float] [Neg Float] [Mul Float] [Div Float]
variable [LT Float] [∀ a b : Float, Decidable (a < b)] [DecidableEq Float] [CMath Float]
variable [Add Spectrum] [Mul Spectrum] [HMul Spectrum Float Spectrum]
variable [HDiv Spectrum Float Spectrum] [SpectrumClass Float Spectrum]

open SamplerIntegrator WhittedIntegrator

/-- A helper makes at most one call of `Li` beyond those inside that call. -/
theorem helper_countLi_le (Li' : LiFn Float Spectrum) (depth : Int) (c : Nat)
    (h : ∀ rd scene sampler, countLi (Li' rd scene sampler (depth + 1)).calls ≤ c)
    (ray : RayDifferential Float) (isect : SurfaceInteraction Float Spectrum)
    (scene : Scene Float Spectrum) (sampler : Sampler Float) :
    countLi (SpecularReflect Li' ray isect scene sampler depth).calls ≤ c + 1 ∧
      countLi (SpecularTransmit Li' ray isect scene sampler depth).calls ≤ c + 1 := by
  constructor
  · rw [SpecularReflect_calls]
    split
    · rw [countLi_cons]
      have := h (SpecularReflect.rd ray isect
        (isect.bsdf.Sample_f isect.wo sampler.Get2D.1 (BSDF_REFLECTION.or BSDF_SPECULAR)).wi)
        scene sampler.Get2D.2
      simp only [Call.isLi, if_true]
      omega
    · simp [countLi]
  · rw [SpecularTransmit_calls]
    split
    · rw [countLi_cons]
      have := h (SpecularTransmit.rd ray isect
        (isect.bsdf.Sample_f isect.wo sampler.Get2D.1 (BSDF_TRANSMISSION.or BSDF_SPECULAR)).wi)
        scene sampler.Get2D.2
      simp only [Call.isLi, if_true]
      omega
    · simp [countLi]

/-- The body of `Li` makes no call of `Li` when the test `depth + 1 < maxDepth`
fails, and otherwise at most two beyond those inside the two recursive calls. -/
theorem LiBody_countLi_le (maxDepth : Int) (Li' : LiFn Float Spectrum) (depth : Int) (c : Nat)
    (h : ∀ rd scene sampler, countLi (Li' rd scene sampler (depth + 1)).calls ≤ c)
    (ray : RayDifferential Float) (scene : Scene Float Spectrum) (sampler : Sampler Float) :
    countLi (LiBody maxDepth Li' ray scene sampler depth).calls ≤
      if depth + 1 < maxDepth then 2 * (c + 1) else 0 := by
  rw [LiBody_calls]
  split
  · simp [countLi]
  · split
    · rw [countLi_append, countLi_cons, countLi_cons]
      simp only [Call.isLi, Bool.false_eq_true, if_false, add_zero]
      have hr := (helper_countLi_le Li' depth c h ray
        (scene.aggregate.ComputeScatteringFunction ‹_› ray) scene
        (Li.direct scene sampler (scene.aggregate.ComputeScatteringFunction ‹_› ray)
          (‹SurfaceInteraction Float Spectrum›).wo
          (‹SurfaceInteraction Float Spectrum›).shading.n).2).1
      have ht := (helper_countLi_le Li' depth c h ray
        (scene.aggregate.ComputeScatteringFunction ‹_› ray) scene
        (SpecularReflect Li' ray (scene.aggregate.ComputeScatteringFunction ‹_› ray) scene
          (Li.direct scene sampler (scene.aggregate.ComputeScatteringFunction ‹_› ray)
            (‹SurfaceInteraction Float Spectrum›).wo
            (‹SurfaceInteraction Float Spectrum›).shading.n).2 depth).sampler).2
      omega
    · simp [countLi]

/-- In every unrolling of `Li`, the calls of `Li` together with the call that
started it number at most `2 ^ k - 1`, where `k` is `maxDepth - depth`, or 1
if that is less than 1. -/
theorem LiFuel_countLi_le (maxDepth : Int) (fuel : Nat) :
    ∀ (depth : Int) (ray : RayDifferential Float) (scene : Scene Float Spectrum)
      (sampler : Sampler Float),
      countLi (LiFuel maxDepth fuel ray scene sampler depth).calls + 2 ≤
        2 ^ (max (maxDepth - depth).toNat 1) := by
  induction fuel with
  | zero =>
    intro depth ray scene sampler
    have h := LiBody_countLi_le maxDepth
      (fun _ _ sampler _ => ({ value := none, sampler := sampler, calls := [] } :
        Outcome Float Spectrum)) depth 0
      (fun _ _ _ => by simp [countLi]) ray scene sampler
    have hb : countLi (LiFuel maxDepth 0 ray scene sampler depth).calls ≤
        if depth + 1 < maxDepth then 2 * (0 + 1) else 0 := h
    by_cases hd : depth + 1 < maxDepth
    · rw [if_pos hd] at hb
      have hk : 2 ≤ max (maxDepth - depth).toNat 1 := by omega
      have : 2 ^ 2 ≤ 2 ^ (max (maxDepth - depth).toNat 1) :=
        Nat.pow_le_pow_right (by norm_num) hk
      omega
    · rw [if_neg hd] at hb
      have : 2 ^ 1 ≤ 2 ^ (max (maxDepth - depth).toNat 1) :=
        Nat.pow_le_pow_right (by norm_num) (le_max_right _ _)
      omega
  | succ fuel ih =>
    intro depth ray scene sampler
    by_cases hd : depth + 1 < maxDepth
    · have hk : max (maxDepth - depth).toNat 1 = max (maxDepth - (depth + 1)).toNat 1 + 1 := by
        omega
      have h := LiBody_countLi_le maxDepth (LiFuel maxDepth fuel) depth
        (2 ^ (max (maxDepth - (depth + 1)).toNat 1) - 2)
        (fun rd sc sm => by
          have := ih (depth + 1) rd sc sm
          omega) ray scene sampler
      have hb : countLi (LiFuel maxDepth (fuel + 1) ray scene sampler depth).calls ≤
          if depth + 1 < maxDepth then
            2 * (2 ^ (max (maxDepth - (depth + 1)).toNat 1) - 2 + 1) else 0 := h
      rw [if_pos hd] at hb
      rw [hk, pow_succ]
      have h2 : 2 ^ 1 ≤ 2 ^ (max (maxDepth - (depth + 1)).toNat 1) :=
        Nat.pow_le_pow_right (by norm_num) (le_max_right _ _)
      omega
    · have h := LiBody_countLi_le maxDepth (LiFuel maxDepth fuel) depth 0
        (fun rd sc sm => by
          have := ih (depth + 1) rd sc sm
          have hk : max (maxDepth - (depth + 1)).toNat 1 = 1 := by omega
          rw [hk] at this
          omega) ray scene sampler
      have hb : countLi (LiFuel maxDepth (fuel + 1) ray scene sampler depth).calls ≤
          if depth + 1 < maxDepth then 2 * (0 + 1) else 0 := h
      rw [if_neg hd] at hb
      have : 2 ^ 1 ≤ 2 ^ (max (maxDepth - depth).toNat 1) :=
        Nat.pow_le_pow_right (by norm_num) (le_max_right _ _)
      omega

/-- C19: for `maxDepth >= 1`, a call of `Li` at depth 0 causes at most
`2 ^ maxDepth - 1` calls of `Li`, itself included, each at a depth `d` with
`0 <= d <= maxDepth - 1`; for `maxDepth <= 1` it causes no call of `Li`
besides itself, that is exactly one. -/
theorem C19_Li_invocation_bound (maxDepth : Int) (ray : RayDifferential Float)
    (scene : Scene Float Spectrum) (sampler : Sampler Float) :
    (1 ≤ maxDepth →
      countLi (Li maxDepth ray scene sampler 0).calls + 1 ≤ 2 ^ maxDepth.toNat - 1 ∧
      ((0 : Int) ≤ 0 ∧ (0 : Int) ≤ maxDepth - 1) ∧
      ∀ (rd : RayDifferential Float) (d : Int),
        Call.Li rd d ∈ (Li maxDepth ray scene sampler 0).calls → 0 ≤ d ∧ d ≤ maxDepth - 1) ∧
    (maxDepth ≤ 1 → countLi (Li maxDepth ray scene sampler 0).calls + 1 = 1) := by
  constructor
  · intro h1
    have hc := LiFuel_countLi_le maxDepth (maxDepth - 0).toNat 0 ray scene sampler
    have hc' : countLi (Li maxDepth ray scene sampler 0).calls + 2 ≤
        2 ^ (max (maxDepth - 0).toNat 1) := hc
    have hk : max (maxDepth - 0).toNat 1 = maxDepth.toNat := by omega
    rw [hk] at hc'
    refine ⟨by omega, ⟨le_refl _, by omega⟩, ?_⟩
    intro rd d hm
    have := LiFuel_call_depths maxDepth _ ray scene sampler 0 rd d hm
    omega
  · intro h1
    have hd : ¬ (0 : Int) + 1 < maxDepth := by omega
    have hcalls : (Li maxDepth ray scene sampler 0).calls = [] := by
      rw [Li_eq_LiBody, LiBody_calls]
      split
      · rfl
      · rw [if_neg hd]
    rw [hcalls]
    rfl

end InvocationCount

section InvocationCountConcrete

open SamplerIntegrator WhittedIntegrator

/-- C19 on the concrete scene: with `maxDepth = 3` the ray that hits the
mirror causes two calls of `Li`, itself included, and with `maxDepth = 1`
one. -/
theorem C19_Li_invocation_bound_witness :
    ((1 : Int) ≤ 3 ∧ (1 : Int) ≤ 1) ∧
    (countLi (Li 3 Sample.rayDown Sample.scene Sample.sampler 0).calls + 1 = 2 ∧
      countLi (Li 3 Sample.rayDown Sample.scene Sample.sampler 0).calls + 1 ≤
        2 ^ (3 : Int).toNat - 1) ∧
    countLi (Li 1 Sample.rayDown Sample.scene Sample.sampler 0).calls + 1 = 1 :=
  ⟨⟨by decide, by decide⟩,
   ⟨by with_unfolding_all rfl,
    ((C19_Li_invocation_bound 3 Sample.rayDown Sample.scene Sample.sampler).1 (by decide)).1⟩,
   (C19_Li_invocation_bound 1 Sample.rayDown Sample.scene Sample.sampler).2 (by decide)⟩

end InvocationCountConcrete

section TransmitOrientation

variable {F : Type} [LinearOrderedField F] {Spectrum : Type}

open SamplerIntegrator

/-- Negating the normal negates the dot product, in exact arithmetic. -/
theorem DotVN_neg (v : Vector3 F) (n : Normal3 F) : DotVN v (-n) = -DotVN v n := by
  show v.x * (-n.x) + v.y * (-n.y) + v.z * (-n.z) = -(v.x * n.x + v.y * n.y + v.z * n.z)
  ring

/-- The orientation of `SpecularTransmit` in exact arithmetic, where the two
divisions `1 / (1 / bsdf.eta)` cancel: with `ray.hasDifferentials` true and
`bsdf.eta != 0`, the block that computes the differentials uses, when
`wo . ns >= 0`, the relative index `1 / bsdf.eta` and the shading normal and
its derivatives `dndx`, `dndy` unchanged; when `wo . ns < 0` it uses the
relative index `bsdf.eta` (the inverse of `1 / bsdf.eta`, which is not zero)
and the negated normal, `dndx` and `dndy`.  In both cases the normal used has
`wo . ns >= 0`, and it is the `ns` of the final weight. -/
theorem transmit_orientation_exact (ray : RayDifferential F)
    (isect : SurfaceInteraction F Spectrum) (wi : Vector3 F) (rd : RayDifferential F)
    (hd : ray.hasDifferentials = true) (heta : isect.bsdf.eta ≠ 0) :
    ∀ L : TransmitLocals F, L = SpecularTransmit.differentials ray isect wi rd →
      (SpecularTransmit.ns ray isect wi = L.ns ∧ 1 / isect.bsdf.eta ≠ 0) ∧
      (0 ≤ DotVN isect.wo isect.shading.n →
        L.eta = 1 / isect.bsdf.eta ∧ L.ns = isect.shading.n ∧
        L.dndx = isect.shading.dndu * isect.dudx + isect.shading.dndv * isect.dvdx ∧
        L.dndy = isect.shading.dndu * isect.dudy + isect.shading.dndv * isect.dvdy) ∧
      (DotVN isect.wo isect.shading.n < 0 →
        L.eta = isect.bsdf.eta ∧ L.ns = -isect.shading.n ∧
        L.dndx = -(isect.shading.dndu * isect.dudx + isect.shading.dndv * isect.dvdx) ∧
        L.dndy = -(isect.shading.dndu * isect.dudy + isect.shading.dndv * isect.dvdy)) ∧
      0 ≤ DotVN isect.wo L.ns := by
  intro L hL
  subst hL
  refine ⟨⟨?_, one_div_ne_zero heta⟩, ?_, ?_, ?_⟩
  · simp [SpecularTransmit.ns, SpecularTransmit.differentials, hd]
  · intro h
    have h' : ¬ DotVN isect.wo isect.shading.n < 0 := not_lt.mpr h
    simp [SpecularTransmit.differentials, h']
  · intro h
    simp [SpecularTransmit.differentials, h]
  · by_cases h : DotVN isect.wo isect.shading.n < 0
    · simp only [SpecularTransmit.differentials, h, decide_True, if_true, DotVN_neg]
      linarith
    · simp only [SpecularTransmit.differentials, h, decide_False, Bool.false_eq_true, if_false]
      exact not_lt.mp h

/-- The exact orientation over the rationals, on the glass surface with
`eta = 2` seen from its back face (`wo = (0, 0, -1)`, shading normal `+z`):
the relative index used is 2 and the normal used is `-z`. -/
theorem transmit_orientation_exact_at_rationals :
    ((Sample.diffRay ℚ).hasDifferentials = true ∧ (Sample.glassIsect ℚ 2 (-1)).bsdf.eta ≠ 0 ∧
      DotVN (Sample.glassIsect ℚ 2 (-1)).wo (Sample.glassIsect ℚ 2 (-1)).shading.n < 0) ∧
    (SpecularTransmit.differentials (Sample.diffRay ℚ) (Sample.glassIsect ℚ 2 (-1)) ⟨0, 0, 1⟩
        (RayDifferential.ofRay ⟨⟨0, 0, 0⟩, ⟨0, 0, 1⟩⟩)).eta = 2 ∧
    (SpecularTransmit.differentials (Sample.diffRay ℚ) (Sample.glassIsect ℚ 2 (-1)) ⟨0, 0, 1⟩
        (RayDifferential.ofRay ⟨⟨0, 0, 0⟩, ⟨0, 0, 1⟩⟩)).ns = ⟨0, 0, -1⟩ ∧
    0 ≤ DotVN (Sample.glassIsect ℚ 2 (-1)).wo
      (SpecularTransmit.differentials (Sample.diffRay ℚ) (Sample.glassIsect ℚ 2 (-1)) ⟨0, 0, 1⟩
        (RayDifferential.ofRay ⟨⟨0, 0, 0⟩, ⟨0, 0, 1⟩⟩)).ns :=
  ⟨⟨rfl, by with_unfolding_all decide, by with_unfolding_all decide⟩,
   by with_unfolding_all decide, by with_unfolding_all decide,
   (transmit_orientation_exact (Sample.diffRay ℚ) (Sample.glassIsect ℚ 2 (-1)) ⟨0, 0, 1⟩
      (RayDifferential.ofRay ⟨⟨0, 0, 0⟩, ⟨0, 0, 1⟩⟩) rfl (by with_unfolding_all decide)
      _ rfl).2.2.2⟩

end TransmitOrientation

section TransmitOrientationRounded

open SamplerIntegrator

/-- Rounding to binary32 commutes with negation. -/
theorem Binary32Format.round_neg (x : FloatVal) :
    Binary32Format.round (-x) = -Binary32Format.round x := by
  show Binary32Format.round (FloatVal.neg x) = FloatVal.neg (Binary32Format.round x)
  cases x with
  | nan => rfl
  | negInf => rfl
  | posInf => rfl
  | fin q =>
    simp only [FloatVal.neg, Binary32Format.round, neg_eq_zero, abs_neg, Left.neg_pos_iff]
    by_cases h0 : q = 0
    · simp [h0, FloatVal.neg]
    · rcases lt_or_gt_of_ne h0 with h | h
      · have h' : ¬ 0 < q := not_lt.mpr (le_of_lt h)
        simp only [h0, h, h', if_true, if_false]
        split_ifs <;> simp [FloatVal.neg]
      · have h' : ¬ q < 0 := not_lt.mpr (le_of_lt h)
        simp only [h0, h, h', if_true, if_false]
        split_ifs <;> simp [FloatVal.neg]

/-- Multiplying by a negated value negates the rounded product. -/
theorem Binary32.rounded_mul_neg (a b : Binary32) : a * (-b) = -(a * b) := by
  show (⟨Binary32Format.round (a.val * (-b.val))⟩ : Binary32) =
    ⟨-Binary32Format.round (a.val * b.val)⟩
  rw [FloatVal.mul_neg_eq, Binary32Format.round_neg]

/-- The rounded sum of two negated values is the negated rounded sum. -/
theorem Binary32.rounded_neg_add_neg (a b : Binary32) : (-a) + (-b) = -(a + b) := by
  show (⟨Binary32Format.round ((-a.val) + (-b.val))⟩ : Binary32) =
    ⟨-Binary32Format.round (a.val + b.val)⟩
  rw [FloatVal.neg_add_neg, Binary32Format.round_neg]

/-- Negating the normal negates the rounded dot product. -/
theorem Binary32.rounded_DotVN_neg (v : Vector3 Binary32) (n : Normal3 Binary32) :
    DotVN v (-n) = -DotVN v n := by
  obtain ⟨a, b, c⟩ := v
  obtain ⟨x, y, z⟩ := n
  show a * (-x) + b * (-y) + c * (-z) = -(a * x + b * y + c * z)
  rw [Binary32.rounded_mul_neg, Binary32.rounded_mul_neg, Binary32.rounded_mul_neg,
    Binary32.rounded_neg_add_neg, Binary32.rounded_neg_add_neg]

/-- The negation of a value below zero is at least zero. -/
theorem Binary32.neg_nonneg_of_neg (x : Binary32) (h : x < 0) : 0 ≤ -x := by
  obtain ⟨x⟩ := x
  change FloatVal.lt x (FloatVal.fin 0) = true at h
  show FloatVal.le (FloatVal.fin 0) (FloatVal.neg x) = true
  cases x with
  | nan => simp [FloatVal.lt] at h
  | negInf => simp [FloatVal.neg, FloatVal.le]
  | posInf => simp [FloatVal.lt] at h
  | fin q =>
    simp only [FloatVal.lt, decide_eq_true_eq] at h
    simp only [FloatVal.neg, FloatVal.le, decide_eq_true_eq]
    linarith

/-- A value that is at least zero is not below zero. -/
theorem Binary32.not_neg_of_nonneg (x : Binary32) (h : 0 ≤ x) : ¬ x < 0 := by
  obtain ⟨x⟩ := x
  change FloatVal.le (FloatVal.fin 0) x = true at h
  show ¬ FloatVal.lt x (FloatVal.fin 0) = true
  cases x with
  | nan => simp [FloatVal.lt]
  | negInf => simp [FloatVal.le] at h
  | posInf => simp [FloatVal.lt]
  | fin q =>
    simp only [FloatVal.le, decide_eq_true_eq] at h
    simp only [FloatVal.lt, decide_eq_true_eq]
    exact not_lt.mpr h

variable {Float Spectrum : Type}
variable [Zero Float] [One Float] [Add Float] [Sub Float] [Neg Float] [Mul Float] [Div Float]
variable [LT Float] [LE Float] [∀ a b : Float, Decidable (a < b)] [CMath Float]

end TransmitOrientationRounded

section RealArithmetic

variable {Spectrum : Type}

open SamplerIntegrator

/-- A cubic polynomial in `t` has its linear coefficient as derivative at 0. -/
theorem cubic_hasDerivAt_zero (a0 a1 a2 a3 : ℝ) :
    HasDerivAt (fun t : ℝ => a0 + a1 * t + a2 * t ^ 2 + a3 * t ^ 3) a1 0 := by
  have h := (((hasDerivAt_id (0 : ℝ)).const_mul a1).const_add a0).add
    ((hasDerivAt_pow 2 (0 : ℝ)).const_mul a2) |>.add ((hasDerivAt_pow 3 (0 : ℝ)).const_mul a3)
  simpa using h

/-- One component of the reflection map along a line through `(w, n)`, with
`A = w . n`, `B = dw . n + w . dn` and `C = dw . dn`. -/
theorem reflection_component_hasDerivAt (wc dc nc ec A B C : ℝ) :
    HasDerivAt (fun t : ℝ => -(wc + t * dc) + (2 * (A + B * t + C * t ^ 2)) * (nc + t * ec))
      (-dc + 2 * (A * ec + B * nc)) 0 := by
  have hf : (fun t : ℝ => -(wc + t * dc) + (2 * (A + B * t + C * t ^ 2)) * (nc + t * ec)) =
      fun t => (-wc + 2 * A * nc) + (-dc + 2 * (A * ec + B * nc)) * t +
        (2 * (B * ec + C * nc)) * t ^ 2 + (2 * C * ec) * t ^ 3 := by
    funext t
    ring
  rw [hf]
  exact cubic_hasDerivAt_zero _ _ _ _

/-- Over the reals, `reflectionDerivative w n dw dn` is the derivative at
`t = 0` of the reflection map along `t ↦ (w + t dw, n + t dn)`, component by
component. -/
theorem reflectionMap_hasDerivAt (w dw : Vector3 ℝ) (n dn : Normal3 ℝ) :
    HasDerivAt (fun t : ℝ => (reflectionMap (w + t * dw) (n + t * dn)).x)
        (reflectionDerivative w n dw dn).x 0 ∧
      HasDerivAt (fun t : ℝ => (reflectionMap (w + t * dw) (n + t * dn)).y)
        (reflectionDerivative w n dw dn).y 0 ∧
      HasDerivAt (fun t : ℝ => (reflectionMap (w + t * dw) (n + t * dn)).z)
        (reflectionDerivative w n dw dn).z 0 := by
  obtain ⟨wx, wy, wz⟩ := w
  obtain ⟨dx, dy, dz⟩ := dw
  obtain ⟨nx, ny, nz⟩ := n
  obtain ⟨ex, ey, ez⟩ := dn
  have hdot : ∀ t : ℝ,
      (wx + t * dx) * (nx + t * ex) + (wy + t * dy) * (ny + t * ey) + (wz + t * dz) * (nz + t * ez) =
        (wx * nx + wy * ny + wz * nz) +
          ((dx * nx + dy * ny + dz * nz) + (wx * ex + wy * ey + wz * ez)) * t +
          (dx * ex + dy * ey + dz * ez) * t ^ 2 := by
    intro t
    ring
  refine ⟨?_, ?_, ?_⟩
  · have h := reflection_component_hasDerivAt wx dx nx ex (wx * nx + wy * ny + wz * nz)
      ((dx * nx + dy * ny + dz * nz) + (wx * ex + wy * ey + wz * ez)) (dx * ex + dy * ey + dz * ez)
    simp only [← hdot] at h
    exact h
  · have h := reflection_component_hasDerivAt wy dy ny ey (wx * nx + wy * ny + wz * nz)
      ((dx * nx + dy * ny + dz * nz) + (wx * ex + wy * ey + wz * ez)) (dx * ex + dy * ey + dz * ez)
    simp only [← hdot] at h
    exact h
  · have h := reflection_component_hasDerivAt wz dz nz ez (wx * nx + wy * ny + wz * nz)
      ((dx * nx + dy * ny + dz * nz) + (wx * ex + wy * ey + wz * ez)) (dx * ex + dy * ey + dz * ez)
    simp only [← hdot] at h
    exact h

/-- Cancelling the leading vector: `a - b + c - a = -b + c`. -/
theorem Vector3.sub_add_sub_cancel_left (a b c : Vector3 ℝ) : a - b + c - a = -b + c := by
  obtain ⟨a1, a2, a3⟩ := a
  obtain ⟨b1, b2, b3⟩ := b
  obtain ⟨c1, c2, c3⟩ := c
  show (⟨a1 - b1 + c1 - a1, a2 - b2 + c2 - a2, a3 - b3 + c3 - a3⟩ : Vector3 ℝ) =
    ⟨-b1 + c1, -b2 + c2, -b3 + c3⟩
  congr 1 <;> ring

/-- C15: over the reals, with `ray.hasDifferentials` true, the auxiliary
directions of the ray differential of `SpecularReflect` satisfy
`rd.rxDirection - wi = -dwodx + 2 ((wo . ns) dndx + (dwodx . ns + wo . dndx) ns)`
with `dwodx = -ray.rxDirection - wo` and `dndx = dndu * dudx + dndv * dvdx`, and
likewise for `y`; and that expression is the derivative of the reflection map
`R(w, n) = -w + 2 (w . n) n` at `(wo, ns)` in the direction `(dwodx, dndx)`. -/
theorem C15_reflect_differential_is_derivative (ray : RayDifferential ℝ)
    (isect : SurfaceInteraction ℝ Spectrum) (wi : Vector3 ℝ)
    (hd : ray.hasDifferentials = true) :
    ∀ dwodx dwody : Vector3 ℝ, ∀ dndx dndy : Normal3 ℝ,
      dwodx = -ray.rxDirection - isect.wo → dwody = -ray.ryDirection - isect.wo →
      dndx = isect.shading.dndu * isect.dudx + isect.shading.dndv * isect.dvdx →
      dndy = isect.shading.dndu * isect.dudy + isect.shading.dndv * isect.dvdy →
      ((SpecularReflect.rd ray isect wi).rxDirection - wi =
          -dwodx + (2 : ℝ) * Vector3.ofNormal
            (DotVN isect.wo isect.shading.n * dndx +
              (DotVN dwodx isect.shading.n + DotVN isect.wo dndx) * isect.shading.n) ∧
        (SpecularReflect.rd ray isect wi).ryDirection - wi =
          -dwody + (2 : ℝ) * Vector3.ofNormal
            (DotVN isect.wo isect.shading.n * dndy +
              (DotVN dwody isect.shading.n + DotVN isect.wo dndy) * isect.shading.n)) ∧
      ((SpecularReflect.rd ray isect wi).rxDirection - wi =
          reflectionDerivative isect.wo isect.shading.n dwodx dndx ∧
        (SpecularReflect.rd ray isect wi).ryDirection - wi =
          reflectionDerivative isect.wo isect.shading.n dwody dndy) ∧
      (HasDerivAt (fun t : ℝ =>
            (reflectionMap (isect.wo + t * dwodx) (isect.shading.n + t * dndx)).x)
          ((SpecularReflect.rd ray isect wi).rxDirection - wi).x 0 ∧
        HasDerivAt (fun t : ℝ =>
            (reflectionMap (isect.wo + t * dwodx) (isect.shading.n + t * dndx)).y)
          ((SpecularReflect.rd ray isect wi).rxDirection - wi).y 0 ∧
        HasDerivAt (fun t : ℝ =>
            (reflectionMap (isect.wo + t * dwodx) (isect.shading.n + t * dndx)).z)
          ((SpecularReflect.rd ray isect wi).rxDirection - wi).z 0) ∧
      (HasDerivAt (fun t : ℝ =>
            (reflectionMap (isect.wo + t * dwody) (isect.shading.n + t * dndy)).x)
          ((SpecularReflect.rd ray isect wi).ryDirection - wi).x 0 ∧
        HasDerivAt (fun t : ℝ =>
            (reflectionMap (isect.wo + t * dwody) (isect.shading.n + t * dndy)).y)
          ((SpecularReflect.rd ray isect wi).ryDirection - wi).y 0 ∧
        HasDerivAt (fun t : ℝ =>
            (reflectionMap (isect.wo + t * dwody) (isect.shading.n + t * dndy)).z)
          ((SpecularReflect.rd ray isect wi).ryDirection - wi).z 0) := by
  intro dwodx dwody dndx dndy h1 h2 h3 h4
  have hx : (SpecularReflect.rd ray isect wi).rxDirection - wi =
      reflectionDerivative isect.wo isect.shading.n dwodx dndx := by
    subst h1 h3
    simp only [SpecularReflect.rd, hd, if_true, reflectionDerivative]
    exact Vector3.sub_add_sub_cancel_left _ _ _
  have hy : (SpecularReflect.rd ray isect wi).ryDirection - wi =
      reflectionDerivative isect.wo isect.shading.n dwody dndy := by
    subst h2 h4
    simp only [SpecularReflect.rd, hd, if_true, reflectionDerivative]
    exact Vector3.sub_add_sub_cancel_left _ _ _
  refine ⟨⟨hx, hy⟩, ⟨hx, hy⟩, ?_, ?_⟩
  · rw [hx]
    exact reflectionMap_hasDerivAt _ _ _ _
  · rw [hy]
    exact reflectionMap_hasDerivAt _ _ _ _

/-- C15 over the reals for the ray `diffRay` on the surface `glassIsect`
with the sampled direction `wi = (0, 0, 1)`. -/
theorem C15_reflect_differential_is_derivative_witness :
    (Sample.diffRay ℝ).hasDifferentials = true ∧
    (SpecularReflect.rd (Sample.diffRay ℝ) (Sample.glassIsect ℝ 1 1) ⟨0, 0, 1⟩).rxDirection -
        (⟨0, 0, 1⟩ : Vector3 ℝ) =
      reflectionDerivative (Sample.glassIsect ℝ 1 1).wo (Sample.glassIsect ℝ 1 1).shading.n
        (-(Sample.diffRay ℝ).rxDirection - (Sample.glassIsect ℝ 1 1).wo)
        ((Sample.glassIsect ℝ 1 1).shading.dndu * (Sample.glassIsect ℝ 1 1).dudx +
          (Sample.glassIsect ℝ 1 1).shading.dndv * (Sample.glassIsect ℝ 1 1).dvdx) :=
  ⟨rfl,
   ((C15_reflect_differential_is_derivative (Sample.diffRay ℝ) (Sample.glassIsect ℝ 1 1)
      ⟨0, 0, 1⟩ rfl _ _ _ _ rfl rfl rfl rfl).2.1).1⟩

/-- The derivative of `mu(t) = eta t - sqrt(1 - eta^2 (1 - t^2))` at a point
`t0` where the square root `c` is positive is `eta - eta^2 t0 / c`. -/
theorem mu_hasDerivAt (η t0 c : ℝ) (hc : c = √(1 - η ^ 2 * (1 - t0 ^ 2))) (hpos : 0 < c) :
    HasDerivAt (fun t : ℝ => η * t - √(1 - η ^ 2 * (1 - t ^ 2))) (η - η * η * t0 / c) t0 := by
  have hg : HasDerivAt (fun t : ℝ => 1 - η ^ 2 * (1 - t ^ 2)) (2 * η ^ 2 * t0) t0 := by
    have h := ((hasDerivAt_pow 2 t0).const_sub 1).const_mul (η ^ 2) |>.const_sub 1
    convert h using 1
    simp
    ring
  have hne : 1 - η ^ 2 * (1 - t0 ^ 2) ≠ 0 := by
    intro h0
    rw [h0, Real.sqrt_zero] at hc
    linarith
  have hs := hg.sqrt hne
  have hl := ((hasDerivAt_id t0).const_mul η).sub hs
  convert hl using 1
  rw [← hc]
  field_simp
  ring

/-- On the glass surface with `eta = 1` seen from the front, the block of
`SpecularTransmit` keeps the shading normal `+z` and uses the relative index 1. -/
theorem Sample.glass_front_locals :
    (SpecularTransmit.differentials (Sample.diffRay ℝ) (Sample.glassIsect ℝ 1 1) ⟨0, 0, -1⟩
        (RayDifferential.ofRay ⟨⟨0, 0, 0⟩, ⟨0, 0, -1⟩⟩)).ns = ⟨0, 0, 1⟩ ∧
      (SpecularTransmit.differentials (Sample.diffRay ℝ) (Sample.glassIsect ℝ 1 1) ⟨0, 0, -1⟩
        (RayDifferential.ofRay ⟨⟨0, 0, 0⟩, ⟨0, 0, -1⟩⟩)).eta = 1 := by
  constructor <;>
    simp [SpecularTransmit.differentials, Sample.glassIsect, Sample.glassBsdf, DotVN]

/-- The cosine of the straight-through direction `(0, 0, -1)` against `+z`. -/
theorem Sample.glass_front_AbsDotVN :
    AbsDotVN (⟨0, 0, -1⟩ : Vector3 ℝ) (⟨0, 0, 1⟩ : Normal3 ℝ) = 1 := by
  show |(0 : ℝ) * 0 + 0 * 0 + (-1) * 1| = 1
  norm_num

/-- The cosine of the outgoing direction of `glassIsect` against `+z`. -/
theorem Sample.glass_front_DotVN :
    DotVN (Sample.glassIsect ℝ 1 1).wo (⟨0, 0, 1⟩ : Normal3 ℝ) = 1 := by
  show (0 : ℝ) * 0 + 0 * 0 + 1 * 1 = 1
  norm_num

/-- A non-zero vector has a non-zero component. -/
theorem Vector3.exists_component_ne_zero (v : Vector3 ℝ) (hv : v ≠ 0) :
    v.x ≠ 0 ∨ v.y ≠ 0 ∨ v.z ≠ 0 := by
  by_contra h
  push_neg at h
  apply hv
  obtain ⟨x, y, z⟩ := v
  obtain ⟨h1, h2, h3⟩ := h
  simp only at h1 h2 h3
  subst h1 h2 h3
  rfl

/-- For a non-zero vector the divisor chosen by `CoordinateSystem` is
positive. -/
theorem CoordinateSystem.divisor_pos (v1 : Vector3 ℝ) (hv : v1 ≠ 0) :
    0 < CoordinateSystem.divisor Real.sqrt v1 := by
  simp only [CoordinateSystem.divisor]
  have habs : ∀ x : ℝ, CMath.abs x = |x| := fun _ => rfl
  rw [habs, habs]
  split
  · rename_i h
    have hx : v1.x ≠ 0 := by
      intro h0
      rw [h0, abs_zero] at h
      exact absurd h (not_lt.mpr (abs_nonneg _))
    apply Real.sqrt_pos.mpr
    have := mul_self_pos.mpr hx
    nlinarith [mul_self_nonneg v1.z]
  · rename_i h
    apply Real.sqrt_pos.mpr
    rcases Vector3.exists_component_ne_zero v1 hv with hx | hy | hz
    · have hy : v1.y ≠ 0 := by
        intro h0
        apply h
        rw [h0, abs_zero]
        exact abs_pos.mpr hx
      have := mul_self_pos.mpr hy
      nlinarith [mul_self_nonneg v1.z]
    · have := mul_self_pos.mpr hy
      nlinarith [mul_self_nonneg v1.z]
    · have := mul_self_pos.mpr hz
      nlinarith [mul_self_nonneg v1.y]

/-- The cross product is orthogonal to both of its arguments. -/
theorem Cross_orthogonal (a b : Vector3 ℝ) : Dot (Cross a b) a = 0 ∧ Dot (Cross a b) b = 0 := by
  constructor <;> (simp only [Dot, Cross]; ring)

/-- The squared length of the cross product (Lagrange's identity). -/
theorem Cross_LengthSquared (a b : Vector3 ℝ) :
    (Cross a b).LengthSquared = a.LengthSquared * b.LengthSquared - Dot a b * Dot a b := by
  simp only [Dot, Cross, Vector3.LengthSquared]
  ring

/-- What `CoordinateSystem` yields from a unit `v2` orthogonal to `v1`. -/
theorem CoordinateSystem.basis_of_unit_orthogonal (v1 v2 : Vector3 ℝ)
    (h1 : v2.LengthSquared = 1) (h2 : Dot v1 v2 = 0) :
    Vector3.Length Real.sqrt v2 = 1 ∧ Dot v1 v2 = 0 ∧ Cross v1 v2 = Cross v1 v2 ∧
      Dot (Cross v1 v2) v1 = 0 ∧ Dot (Cross v1 v2) v2 = 0 ∧
      (Vector3.Length Real.sqrt v1 = 1 → Vector3.Length Real.sqrt (Cross v1 v2) = 1) := by
  refine ⟨by simp [Vector3.Length, h1], h2, rfl, (Cross_orthogonal v1 v2).1,
    (Cross_orthogonal v1 v2).2, ?_⟩
  intro hl
  have hl2 : v1.LengthSquared = 1 := by
    simp only [Vector3.Length] at hl
    have h0 : (0 : ℝ) ≤ v1.LengthSquared := by
      simp only [Vector3.LengthSquared]
      nlinarith [mul_self_nonneg v1.x, mul_self_nonneg v1.y, mul_self_nonneg v1.z]
    have := Real.sq_sqrt h0
    rw [hl] at this
    linarith
  simp [Vector3.Length, Cross_LengthSquared, hl2, h1, h2]

/-- C20: over the reals, for a non-zero `v1`, the divisor that
`CoordinateSystem` passes to `operator/` is strictly positive, so the check
`CHECK_NE(f, 0)` passes and the function returns; the returned `v2` has length
1 and is orthogonal to `v1`; `v3` is `Cross(v1, v2)` and is orthogonal to `v1`
and to `v2`; and if `v1` has length 1 then so has `v3`. -/
theorem C20_CoordinateSystem_orthonormal (v1 : Vector3 ℝ) (hv : v1 ≠ 0) :
    0 < CoordinateSystem.divisor Real.sqrt v1 ∧
      ∃ v2 v3 : Vector3 ℝ, CoordinateSystem Real.sqrt v1 = some (v2, v3) ∧
        Vector3.Length Real.sqrt v2 = 1 ∧ Dot v1 v2 = 0 ∧ v3 = Cross v1 v2 ∧
        Dot v3 v1 = 0 ∧ Dot v3 v2 = 0 ∧
        (Vector3.Length Real.sqrt v1 = 1 → Vector3.Length Real.sqrt v3 = 1) := by
  have hpos := CoordinateSystem.divisor_pos v1 hv
  refine ⟨hpos, ?_⟩
  have habs : ∀ x : ℝ, CMath.abs x = |x| := fun _ => rfl
  simp only [CoordinateSystem.divisor, habs] at hpos
  simp only [CoordinateSystem, habs]
  split
  · rename_i h
    rw [if_pos h] at hpos
    set s := √(v1.x * v1.x + v1.z * v1.z) with hs
    have hss : s * s = v1.x * v1.x + v1.z * v1.z :=
      Real.mul_self_sqrt (by nlinarith [mul_self_nonneg v1.x, mul_self_nonneg v1.z])
    have hne : s ≠ 0 := ne_of_gt hpos
    simp only [Vector3.div, if_neg hne, Option.map_some']
    refine ⟨_, _, rfl, CoordinateSystem.basis_of_unit_orthogonal v1 _ ?_ ?_⟩
    · simp only [Vector3.LengthSquared]
      field_simp
      nlinarith
    · simp only [Dot]
      field_simp
      ring
  · rename_i h
    rw [if_neg h] at hpos
    set s := √(v1.y * v1.y + v1.z * v1.z) with hs
    have hss : s * s = v1.y * v1.y + v1.z * v1.z :=
      Real.mul_self_sqrt (by nlinarith [mul_self_nonneg v1.y, mul_self_nonneg v1.z])
    have hne : s ≠ 0 := ne_of_gt hpos
    simp only [Vector3.div, if_neg hne, Option.map_some']
    refine ⟨_, _, rfl, CoordinateSystem.basis_of_unit_orthogonal v1 _ ?_ ?_⟩
    · simp only [Vector3.LengthSquared]
      field_simp
      nlinarith
    · simp only [Dot]
      field_simp
      ring

/-- The vector `(3, 0, 4)` is not the zero vector. -/
theorem Sample.v340_ne_zero : (⟨3, 0, 4⟩ : Vector3 ℝ) ≠ 0 := by
  intro h
  have h3 := congrArg Vector3.x h
  have h0 : (0 : Vector3 ℝ).x = 0 := rfl
  rw [h0] at h3
  norm_num at h3

/-- C20 at the vector `(3, 0, 4)`: the divisor is positive and the function
returns a pair `(v2, v3)`. -/
theorem C20_CoordinateSystem_orthonormal_witness :
    (⟨3, 0, 4⟩ : Vector3 ℝ) ≠ 0 ∧
    0 < CoordinateSystem.divisor Real.sqrt (⟨3, 0, 4⟩ : Vector3 ℝ) ∧
    ∃ v2 v3 : Vector3 ℝ, CoordinateSystem Real.sqrt (⟨3, 0, 4⟩ : Vector3 ℝ) = some (v2, v3) ∧
      Vector3.Length Real.sqrt v2 = 1 ∧ Dot (⟨3, 0, 4⟩ : Vector3 ℝ) v2 = 0 :=
  ⟨Sample.v340_ne_zero,
   (C20_CoordinateSystem_orthonormal ⟨3, 0, 4⟩ Sample.v340_ne_zero).1,
   (C20_CoordinateSystem_orthonormal ⟨3, 0, 4⟩ Sample.v340_ne_zero).2.imp fun _ h =>
     h.imp fun _ h' => ⟨h'.1, h'.2.1, h'.2.2.1⟩⟩

end RealArithmetic

section MaxDimensionTheorems

variable {T : Type} [LinearOrder T]

/-- In a total order `std::max` is the maximum. -/
theorem stdMax_eq_max (a b : T) : stdMax a b = max a b := by
  simp only [stdMax]
  split
  · rename_i h
    exact (max_eq_right (le_of_lt h)).symm
  · rename_i h
    exact (max_eq_left (not_lt.mp h)).symm

/-- `MaxComponent` is the maximum of the three components. -/
theorem MaxComponent_eq_max (v : Vector3 T) : MaxComponent v = max v.x (max v.y v.z) := by
  simp only [MaxComponent, stdMax_eq_max]

/-- C21: over a totally ordered component type, `MaxDimension(v)` is an index
`i` among 0, 1, 2 with `v[i]` equal to `MaxComponent(v)`, so that
`v[i] >= v[j]` for `j = 0, 1, 2`. -/
theorem C21_MaxDimension_indexes_MaxComponent (v : Vector3 T) :
    (MaxDimension v = 0 ∨ MaxDimension v = 1 ∨ MaxDimension v = 2) ∧
      v.get (MaxDimension v) = MaxComponent v ∧
      (v.get 0 ≤ v.get (MaxDimension v) ∧ v.get 1 ≤ v.get (MaxDimension v) ∧
        v.get 2 ≤ v.get (MaxDimension v)) := by
  have h0 : v.get 0 = v.x := rfl
  have h1 : v.get 1 = v.y := rfl
  have h2 : v.get 2 = v.z := rfl
  rw [MaxComponent_eq_max, h0, h1, h2]
  simp only [MaxDimension]
  by_cases hxy : v.x > v.y
  · by_cases hxz : v.x > v.z
    · rw [if_pos hxy, if_pos hxz, h0]
      refine ⟨Or.inl rfl, ?_, le_refl _, le_of_lt hxy, le_of_lt hxz⟩
      rw [max_eq_left (max_le (le_of_lt hxy) (le_of_lt hxz))]
    · rw [if_pos hxy, if_neg hxz, h2]
      have hzx : v.x ≤ v.z := not_lt.mp hxz
      have hyz : v.y ≤ v.z := le_trans (le_of_lt hxy) hzx
      refine ⟨Or.inr (Or.inr rfl), ?_, hzx, hyz, le_refl _⟩
      rw [max_eq_right hyz, max_eq_right hzx]
  · have hyx : v.x ≤ v.y := not_lt.mp hxy
    by_cases hyz : v.y > v.z
    · rw [if_neg hxy, if_pos hyz, h1]
      refine ⟨Or.inr (Or.inl rfl), ?_, hyx, le_refl _, le_of_lt hyz⟩
      rw [max_eq_left (le_of_lt hyz), max_eq_right hyx]
    · rw [if_neg hxy, if_neg hyz, h2]
      have hzy : v.y ≤ v.z := not_lt.mp hyz
      refine ⟨Or.inr (Or.inr rfl), ?_, le_trans hyx hzy, hzy, le_refl _⟩
      rw [max_eq_right hzy, max_eq_right (le_trans hyx hzy)]

/-- C21 at the integer vectors `(3, 7, 5)` and `(4, 4, 4)`: the indices are 1
and 2, and the components there are the maxima 7 and 4. -/
theorem C21_MaxDimension_indexes_MaxComponent_witness :
    (MaxDimension (⟨3, 7, 5⟩ : Vector3 Int) = 1 ∧
      (⟨3, 7, 5⟩ : Vector3 Int).get (MaxDimension (⟨3, 7, 5⟩ : Vector3 Int)) = 7 ∧
      MaxComponent (⟨3, 7, 5⟩ : Vector3 Int) = 7) ∧
    MaxDimension (⟨4, 4, 4⟩ : Vector3 Int) = 2 ∧
    (⟨4, 4, 4⟩ : Vector3 Int).get (MaxDimension (⟨4, 4, 4⟩ : Vector3 Int)) =
      MaxComponent (⟨4, 4, 4⟩ : Vector3 Int) :=
  ⟨⟨by decide, by decide, by decide⟩, by decide,
   (C21_MaxDimension_indexes_MaxComponent (⟨4, 4, 4⟩ : Vector3 Int)).2.1⟩

end MaxDimensionTheorems

end Pbrt
